import Mathlib

/-!
Thruster allocation residuals of `thruster_controller.h`.

A shallow embedding of the residual functors declared in
`riptide_controllers/include/riptide_controllers/thruster_controller.h`.

Every functor of the header is a template over its scalar type `T` (ceres
instantiates it with `double` and with its automatic-differentiation jets).
The embedding keeps that parameter: the scalar type is an arbitrary field `K`
(a linearly ordered field where least-squares costs are compared), and concrete
evaluations are at `K = ℚ`.  Rounding of `double` is not modelled, and a
division whose divisor is zero is only ever reasoned about under the
hypothesis that the divisor is nonzero.

The file-scope variables of the header (`mass`, `Ixx`, `R_w2b`, the thruster
positions, ...) are the fields of one record, `Globals`, passed explicitly to
every functor that reads them.
-/

namespace Riptide

/-! ## Data model -/

/-- The header's `struct vector { double x; double y; double z; }`. -/
structure vector (K : Type) where
  x : K
  y : K
  z : K

/-- The accessors of `tf::Vector3` that the header uses: `x()`, `y()`, `z()`. -/
structure Vector3 (K : Type) where
  x : K
  y : K
  z : K

/-- The part of `tf::Matrix3x3` that the header uses: three rows, read with `getRow`. -/
structure Matrix3x3 (K : Type) where
  row0 : Vector3 K
  row1 : Vector3 K
  row2 : Vector3 K

/-- Row access `m.getRow(i)` for `i` in `0..2`. -/
def Matrix3x3.getRow {K : Type} (m : Matrix3x3 K) (i : Fin 3) : Vector3 K :=
  match i with
  | 0 => m.row0
  | 1 => m.row1
  | 2 => m.row2

/-- The file-scope variables of the header (lines 152-229), one field per variable. -/
structure Globals (K : Type) where
  Ixx : K
  Iyy : K
  Izz : K
  MIN_THRUST : K
  MAX_THRUST : K
  mass : K
  weight : K
  volume : K
  buoyancy : K
  cmdSurge : K
  cmdSway : K
  cmdHeave : K
  cmdRoll : K
  cmdPitch : K
  cmdYaw : K
  surge_port_lo : K
  surge_stbd_lo : K
  sway_fwd : K
  sway_aft : K
  heave_port_aft : K
  heave_stbd_aft : K
  heave_stbd_fwd : K
  heave_port_fwd : K
  enableSPL : Bool
  enableSSL : Bool
  enableSWF : Bool
  enableSWA : Bool
  enableHPF : Bool
  enableHSF : Bool
  enableHPA : Bool
  enableHSA : Bool
  isBuoyant : Bool
  pos_buoyancy_x : K
  pos_buoyancy_y : K
  pos_buoyancy_z : K
  buoyancy_depth_thresh : K
  R_w2b : Matrix3x3 K
  R_b2w : Matrix3x3 K
  euler_deg : Vector3 K
  euler_rpy : Vector3 K
  ang_v : Vector3 K
  pos_surge_port_lo : vector K
  pos_surge_stbd_lo : vector K
  pos_sway_fwd : vector K
  pos_sway_aft : vector K
  pos_heave_port_fwd : vector K
  pos_heave_port_aft : vector K
  pos_heave_stbd_fwd : vector K
  pos_heave_stbd_aft : vector K
  pos_buoyancy : vector K

/-- The public numeric members of `class ThrusterController` (lines 83-84) read by `EOM`. -/
structure ThrusterController (K : Type) where
  numThrusters : Int
  thrustFM : Fin 6 → Fin 8 → K
  inertia : Fin 6 → K
  weightFM : Fin 6 → K
  transportThm : Fin 6 → K
  command : Fin 6 → K

/-- The conversion `T(b)` of a `bool` to the scalar type: `true` is one, `false` is zero. -/
def ofBool {K : Type} [Field K] (b : Bool) : K :=
  if b then 1 else 0

/-! ## The generic residual `EOM::operator()` (lines 126-144) -/

/-- The inner loop `for (j = ...; j < numThrusters; j++) residual[i] += thrustFM[i][j] * forces[j]`,
run over the remaining indices `js`.  `thrustFM` has 8 columns and `forces` is the block of
8 unknowns, so an index `j ≥ 8` is an access outside both arrays and yields `none`. -/
def EOM.thrusterLoop {K : Type} [Field K] (tc : ThrusterController K) (forces : Fin 8 → K)
    (i : Fin 6) : List Nat → (Fin 6 → K) → Option (Fin 6 → K)
  | [], residual => some residual
  | j :: js, residual =>
    if h : j < 8 then
      EOM.thrusterLoop tc forces i js
        (Function.update residual i (residual i + tc.thrustFM i ⟨j, h⟩ * forces ⟨j, h⟩))
    else none

/-- The body of the outer loop for one axis `i` (lines 131-141). -/
def EOM.axisBody {K : Type} [Field K] (tc : ThrusterController K) (forces : Fin 8 → K)
    (i : Fin 6) (residual : Fin 6 → K) : Option (Fin 6 → K) :=
  let r0 := Function.update residual i 0
  match EOM.thrusterLoop tc forces i (List.range tc.numThrusters.toNat) r0 with
  | none => none
  | some r1 =>
    let r2 := Function.update r1 i (r1 i + (tc.weightFM i + tc.transportThm i))
    some (Function.update r2 i (r2 i / tc.inertia i - tc.command i))

/-- The outer loop `for (i = ...; i < 6; i++)` over the remaining axes. -/
def EOM.axisLoop {K : Type} [Field K] (tc : ThrusterController K) (forces : Fin 8 → K) :
    List (Fin 6) → (Fin 6 → K) → Option (Fin 6 → K)
  | [], residual => some residual
  | i :: is, residual =>
    match EOM.axisBody tc forces i residual with
    | none => none
    | some r => EOM.axisLoop tc forces is r

/-- The call `EOM::operator()(forces, residual)`: the returned flag together with the
contents of the `residual` buffer afterwards; `none` when an array is read out of bounds.
The argument `residual` is the content of the output buffer before the call. -/
def EOM.call {K : Type} [Field K] (tc : ThrusterController K) (forces : Fin 8 → K)
    (residual : Fin 6 → K) : Option (Bool × (Fin 6 → K)) :=
  match EOM.axisLoop tc forces (List.finRange 6) residual with
  | none => none
  | some r => some (true, r)

/-! ## The per-axis functors (lines 235-346)

Each `operator()` receives its parameter blocks (one force each) and returns the flag
together with the value written to `residual[0]`. -/

/-- Numerator of the `surge` residual (lines 240-241). -/
def surgeNum {K : Type} [Field K] (g : Globals K) (surge_port_lo surge_stbd_lo : K) : K :=
  surge_port_lo + surge_stbd_lo +
    ((g.R_w2b.getRow 0).z * (g.buoyancy - g.weight) * ofBool g.isBuoyant)

/-- The functor `surge::operator()`. -/
def surge {K : Type} [Field K] (g : Globals K) (surge_port_lo surge_stbd_lo : K) : Bool × K :=
  (true, surgeNum g surge_port_lo surge_stbd_lo / g.mass - g.cmdSurge)

/-- Numerator of the `sway` residual (lines 253-254). -/
def swayNum {K : Type} [Field K] (g : Globals K) (sway_fwd sway_aft : K) : K :=
  sway_fwd + sway_aft +
    ((g.R_w2b.getRow 1).z * (g.buoyancy - g.weight) * ofBool g.isBuoyant)

/-- The functor `sway::operator()`. -/
def sway {K : Type} [Field K] (g : Globals K) (sway_fwd sway_aft : K) : Bool × K :=
  (true, swayNum g sway_fwd sway_aft / g.mass - g.cmdSway)

/-- Numerator of the `heave` residual (lines 268-269). -/
def heaveNum {K : Type} [Field K] (g : Globals K)
    (heave_port_fwd heave_stbd_fwd heave_port_aft heave_stbd_aft : K) : K :=
  heave_port_fwd + heave_stbd_fwd + heave_port_aft + heave_stbd_aft +
    ((g.R_w2b.getRow 2).z * (g.buoyancy - g.weight) * ofBool g.isBuoyant)

/-- The functor `heave::operator()`. -/
def heave {K : Type} [Field K] (g : Globals K)
    (heave_port_fwd heave_stbd_fwd heave_port_aft heave_stbd_aft : K) : Bool × K :=
  (true, heaveNum g heave_port_fwd heave_stbd_fwd heave_port_aft heave_stbd_aft / g.mass
    - g.cmdHeave)

/-- Numerator of the `roll` residual (lines 289-295). -/
def rollNum {K : Type} [Field K] (g : Globals K)
    (sway_fwd sway_aft heave_port_fwd heave_stbd_fwd heave_port_aft heave_stbd_aft : K) : K :=
  ((g.R_w2b.getRow 1).z * g.buoyancy * (-g.pos_buoyancy.z) +
      (g.R_w2b.getRow 2).z * g.buoyancy * g.pos_buoyancy.y) * ofBool g.isBuoyant +
    sway_fwd * (-g.pos_sway_fwd.z) + sway_aft * (-g.pos_sway_aft.z) +
    heave_port_fwd * g.pos_heave_port_fwd.y + heave_stbd_fwd * g.pos_heave_stbd_fwd.y +
    heave_port_aft * g.pos_heave_port_aft.y + heave_stbd_aft * g.pos_heave_stbd_aft.y -
    ((g.ang_v.z * g.ang_v.y) * (g.Izz - g.Iyy))

/-- The functor `roll::operator()`. -/
def roll {K : Type} [Field K] (g : Globals K)
    (sway_fwd sway_aft heave_port_fwd heave_stbd_fwd heave_port_aft heave_stbd_aft : K) :
    Bool × K :=
  (true, rollNum g sway_fwd sway_aft heave_port_fwd heave_stbd_fwd heave_port_aft heave_stbd_aft
    / g.Ixx - g.cmdRoll)

/-- Numerator of the `pitch` residual (lines 313-319). -/
def pitchNum {K : Type} [Field K] (g : Globals K)
    (surge_port_lo surge_stbd_lo heave_port_fwd heave_stbd_fwd heave_port_aft heave_stbd_aft : K) :
    K :=
  ((g.R_w2b.getRow 0).z * g.buoyancy * g.pos_buoyancy.z +
      (g.R_w2b.getRow 2).z * g.buoyancy * (-g.pos_buoyancy.x)) * ofBool g.isBuoyant +
    surge_port_lo * g.pos_surge_port_lo.z + surge_stbd_lo * g.pos_surge_stbd_lo.z +
    heave_port_fwd * (-g.pos_heave_port_fwd.x) + heave_stbd_fwd * (-g.pos_heave_stbd_fwd.x) +
    heave_port_aft * (-g.pos_heave_port_aft.x) + heave_stbd_aft * (-g.pos_heave_stbd_aft.x) -
    ((g.ang_v.x * g.ang_v.z) * (g.Ixx - g.Izz))

/-- The functor `pitch::operator()`. -/
def pitch {K : Type} [Field K] (g : Globals K)
    (surge_port_lo surge_stbd_lo heave_port_fwd heave_stbd_fwd heave_port_aft heave_stbd_aft : K) :
    Bool × K :=
  (true, pitchNum g surge_port_lo surge_stbd_lo heave_port_fwd heave_stbd_fwd heave_port_aft
    heave_stbd_aft / g.Iyy - g.cmdPitch)

/-- Numerator of the `yaw` residual (lines 336-341). -/
def yawNum {K : Type} [Field K] (g : Globals K)
    (surge_port_lo surge_stbd_lo sway_fwd sway_aft : K) : K :=
  ((g.R_w2b.getRow 0).z * g.buoyancy * (-g.pos_buoyancy.y) +
      (g.R_w2b.getRow 1).z * g.buoyancy * g.pos_buoyancy.x) * ofBool g.isBuoyant +
    surge_port_lo * (-g.pos_surge_port_lo.y) + surge_stbd_lo * (-g.pos_surge_stbd_lo.y) +
    sway_fwd * g.pos_sway_fwd.x + sway_aft * g.pos_sway_aft.x -
    ((g.ang_v.y * g.ang_v.x) * (g.Iyy - g.Ixx))

/-- The functor `yaw::operator()`. -/
def yaw {K : Type} [Field K] (g : Globals K)
    (surge_port_lo surge_stbd_lo sway_fwd sway_aft : K) : Bool × K :=
  (true, yawNum g surge_port_lo surge_stbd_lo sway_fwd sway_aft / g.Izz - g.cmdYaw)

/-! ## The calibration functors (lines 364-414)

Their parameter blocks are the components of the centre-of-buoyancy offset; the thruster
forces are read from the solved-force globals. -/

/-- The functor `tuneRoll::operator()`. -/
def tuneRoll {K : Type} [Field K] (g : Globals K) (pos_buoyancy_y pos_buoyancy_z : K) :
    Bool × K :=
  (true,
    (g.R_w2b.getRow 1).z * g.buoyancy * (-pos_buoyancy_z) +
    (g.R_w2b.getRow 2).z * g.buoyancy * pos_buoyancy_y +
    g.sway_fwd * (-g.pos_sway_fwd.z) + g.sway_aft * (-g.pos_sway_aft.z) +
    g.heave_port_fwd * g.pos_heave_port_fwd.y + g.heave_port_aft * g.pos_heave_port_aft.y +
    g.heave_stbd_fwd * g.pos_heave_stbd_fwd.y + g.heave_stbd_aft * g.pos_heave_stbd_aft.y -
    (g.ang_v.z * g.ang_v.y) * (g.Izz - g.Iyy))

/-- The functor `tunePitch::operator()`. -/
def tunePitch {K : Type} [Field K] (g : Globals K) (pos_buoyancy_x pos_buoyancy_z : K) :
    Bool × K :=
  (true,
    (g.R_w2b.getRow 0).z * g.buoyancy * pos_buoyancy_z +
    (g.R_w2b.getRow 2).z * g.buoyancy * (-pos_buoyancy_x) +
    g.surge_port_lo * g.pos_surge_port_lo.z + g.surge_stbd_lo * g.pos_surge_stbd_lo.z +
    g.heave_port_aft * (-g.pos_heave_port_aft.x) + g.heave_stbd_aft * (-g.pos_heave_stbd_aft.x) +
    g.heave_port_fwd * (-g.pos_heave_port_fwd.x) + g.heave_stbd_fwd * (-g.pos_heave_stbd_fwd.x) -
    (g.ang_v.x * g.ang_v.z) * (g.Ixx - g.Izz))

/-- The functor `tuneYaw::operator()`. -/
def tuneYaw {K : Type} [Field K] (g : Globals K) (pos_buoyancy_x pos_buoyancy_y : K) :
    Bool × K :=
  (true,
    (g.R_w2b.getRow 0).z * g.buoyancy * (-pos_buoyancy_y) +
    (g.R_w2b.getRow 1).z * g.buoyancy * pos_buoyancy_x +
    g.surge_port_lo * (-g.pos_surge_port_lo.y) + g.surge_stbd_lo * (-g.pos_surge_stbd_lo.y) +
    g.sway_fwd * g.pos_sway_fwd.x + g.sway_aft * g.pos_sway_aft.x -
    (g.ang_v.y * g.ang_v.x) * (g.Iyy - g.Ixx))

/-! ## The disable functors (lines 423-508)

In the header these are file-scope structs like the others, so each is given the globals
although none of them reads one. -/

/-- The functor `disableSPL::operator()`. -/
def disableSPL {K : Type} (_g : Globals K) (surge_port_lo : K) : Bool × K :=
  (true, surge_port_lo)

/-- The functor `disableSSL::operator()`. -/
def disableSSL {K : Type} (_g : Globals K) (surge_stbd_lo : K) : Bool × K :=
  (true, surge_stbd_lo)

/-- The functor `disableSWF::operator()`. -/
def disableSWF {K : Type} (_g : Globals K) (sway_fwd : K) : Bool × K :=
  (true, sway_fwd)

/-- The functor `disableSWA::operator()`. -/
def disableSWA {K : Type} (_g : Globals K) (sway_aft : K) : Bool × K :=
  (true, sway_aft)

/-- The functor `disableHPF::operator()`. -/
def disableHPF {K : Type} (_g : Globals K) (heave_port_fwd : K) : Bool × K :=
  (true, heave_port_fwd)

/-- The functor `disableHSF::operator()`. -/
def disableHSF {K : Type} (_g : Globals K) (heave_stbd_fwd : K) : Bool × K :=
  (true, heave_stbd_fwd)

/-- The functor `disableHPA::operator()`. -/
def disableHPA {K : Type} (_g : Globals K) (heave_port_aft : K) : Bool × K :=
  (true, heave_port_aft)

/-- The functor `disableHSA::operator()`. -/
def disableHSA {K : Type} (_g : Globals K) (heave_stbd_aft : K) : Bool × K :=
  (true, heave_stbd_aft)

/-! ## Binding of the functors to the eight unknown forces -/

/-- The eight unknown thruster forces (the parameter blocks `surge_port_lo`, ...,
`heave_stbd_aft` handed to the functors), named as the functor parameters are. -/
structure Forces (K : Type) where
  surge_port_lo : K
  surge_stbd_lo : K
  sway_fwd : K
  sway_aft : K
  heave_port_fwd : K
  heave_stbd_fwd : K
  heave_port_aft : K
  heave_stbd_aft : K

/-- The eight thrusters, named by the suffixes of `enableSPL` ... `enableHSA`. -/
inductive Thruster where
  | SPL
  | SSL
  | SWF
  | SWA
  | HPF
  | HSF
  | HPA
  | HSA
  deriving DecidableEq, Repr

/-- All eight thrusters. -/
def Thruster.all : List Thruster :=
  [.SPL, .SSL, .SWF, .SWA, .HPF, .HSF, .HPA, .HSA]

/-- The force of thruster `k` in a force vector. -/
def Forces.get {K : Type} (F : Forces K) : Thruster → K
  | .SPL => F.surge_port_lo
  | .SSL => F.surge_stbd_lo
  | .SWF => F.sway_fwd
  | .SWA => F.sway_aft
  | .HPF => F.heave_port_fwd
  | .HSF => F.heave_stbd_fwd
  | .HPA => F.heave_port_aft
  | .HSA => F.heave_stbd_aft

/-- The all-zero force vector. -/
def Forces.zero {K : Type} [Field K] : Forces K :=
  ⟨0, 0, 0, 0, 0, 0, 0, 0⟩

/-- The position global of thruster `k`. -/
def Globals.pos {K : Type} (g : Globals K) : Thruster → vector K
  | .SPL => g.pos_surge_port_lo
  | .SSL => g.pos_surge_stbd_lo
  | .SWF => g.pos_sway_fwd
  | .SWA => g.pos_sway_aft
  | .HPF => g.pos_heave_port_fwd
  | .HSF => g.pos_heave_stbd_fwd
  | .HPA => g.pos_heave_port_aft
  | .HSA => g.pos_heave_stbd_aft

/-- Residual of `surge` at a force vector, each parameter bound to the force of its name. -/
def surgeRes {K : Type} [Field K] (g : Globals K) (F : Forces K) : K :=
  (surge g F.surge_port_lo F.surge_stbd_lo).2

/-- Residual of `sway` at a force vector. -/
def swayRes {K : Type} [Field K] (g : Globals K) (F : Forces K) : K :=
  (sway g F.sway_fwd F.sway_aft).2

/-- Residual of `heave` at a force vector. -/
def heaveRes {K : Type} [Field K] (g : Globals K) (F : Forces K) : K :=
  (heave g F.heave_port_fwd F.heave_stbd_fwd F.heave_port_aft F.heave_stbd_aft).2

/-- Residual of `roll` at a force vector. -/
def rollRes {K : Type} [Field K] (g : Globals K) (F : Forces K) : K :=
  (roll g F.sway_fwd F.sway_aft F.heave_port_fwd F.heave_stbd_fwd F.heave_port_aft
    F.heave_stbd_aft).2

/-- Residual of `pitch` at a force vector. -/
def pitchRes {K : Type} [Field K] (g : Globals K) (F : Forces K) : K :=
  (pitch g F.surge_port_lo F.surge_stbd_lo F.heave_port_fwd F.heave_stbd_fwd F.heave_port_aft
    F.heave_stbd_aft).2

/-- Residual of `yaw` at a force vector. -/
def yawRes {K : Type} [Field K] (g : Globals K) (F : Forces K) : K :=
  (yaw g F.surge_port_lo F.surge_stbd_lo F.sway_fwd F.sway_aft).2

/-- Residual of the disable functor of thruster `k` at a force vector. -/
def disableRes {K : Type} (g : Globals K) (k : Thruster) (F : Forces K) : K :=
  match k with
  | .SPL => (disableSPL g F.surge_port_lo).2
  | .SSL => (disableSSL g F.surge_stbd_lo).2
  | .SWF => (disableSWF g F.sway_fwd).2
  | .SWA => (disableSWA g F.sway_aft).2
  | .HPF => (disableHPF g F.heave_port_fwd).2
  | .HSF => (disableHSF g F.heave_stbd_fwd).2
  | .HPA => (disableHPA g F.heave_port_aft).2
  | .HSA => (disableHSA g F.heave_stbd_aft).2

/-- The globals with the solved-force variables set to `F`: what the calibration functors
read when the thruster forces are `F`. -/
def Globals.withForces {K : Type} (g : Globals K) (F : Forces K) : Globals K :=
  { g with
    surge_port_lo := F.surge_port_lo
    surge_stbd_lo := F.surge_stbd_lo
    sway_fwd := F.sway_fwd
    sway_aft := F.sway_aft
    heave_port_fwd := F.heave_port_fwd
    heave_stbd_fwd := F.heave_stbd_fwd
    heave_port_aft := F.heave_port_aft
    heave_stbd_aft := F.heave_stbd_aft }

/-! ## Least-squares objective -/

/-- Sum of the squares of the six per-axis residuals. -/
def eomCost {K : Type} [Field K] (g : Globals K) (F : Forces K) : K :=
  surgeRes g F ^ 2 + swayRes g F ^ 2 + heaveRes g F ^ 2 +
    rollRes g F ^ 2 + pitchRes g F ^ 2 + yawRes g F ^ 2

/-- Modelled from the spec: the objective of the force solve.  The residual blocks are
handed to ceres in `thruster_controller.cpp`, which is not among the sources; following
§4.4 the objective is the sum of the squared residuals of the six per-axis functors and of
the disable functor of every thruster in the disabled set `D`, a parameter here. -/
def totalCost {K : Type} [Field K] (g : Globals K) (D : List Thruster) (F : Forces K) : K :=
  eomCost g F + ((D.dedup).map (fun k => disableRes g k F ^ 2)).sum

/-- A force vector that minimises the objective over all force vectors. -/
def IsMinimiser {K : Type} [LinearOrderedField K] (g : Globals K) (D : List Thruster)
    (F : Forces K) : Prop :=
  ∀ F' : Forces K, totalCost g D F ≤ totalCost g D F'

/-! ## Calibration: the three residuals as functions of the offset -/

/-- All three calibration residuals vanish at the offset `C`, the parameters of each functor
bound to the components of `C` of the same name. -/
def tuneZero {K : Type} [Field K] (g : Globals K) (C : vector K) : Prop :=
  (tuneRoll g C.y C.z).2 = 0 ∧ (tunePitch g C.x C.z).2 = 0 ∧ (tuneYaw g C.x C.y).2 = 0

/-- The entries of `R_w2b` read by the functors: the `z` component of each row. -/
def Globals.rz {K : Type} (g : Globals K) : vector K :=
  ⟨(g.R_w2b.getRow 0).z, (g.R_w2b.getRow 1).z, (g.R_w2b.getRow 2).z⟩

/-- A rotation matrix: orthonormal columns and determinant one. -/
def Matrix3x3.IsRotation {K : Type} [Field K] (m : Matrix3x3 K) : Prop :=
  m.row0.x * m.row0.x + m.row1.x * m.row1.x + m.row2.x * m.row2.x = 1 ∧
  m.row0.y * m.row0.y + m.row1.y * m.row1.y + m.row2.y * m.row2.y = 1 ∧
  m.row0.z * m.row0.z + m.row1.z * m.row1.z + m.row2.z * m.row2.z = 1 ∧
  m.row0.x * m.row0.y + m.row1.x * m.row1.y + m.row2.x * m.row2.y = 0 ∧
  m.row0.x * m.row0.z + m.row1.x * m.row1.z + m.row2.x * m.row2.z = 0 ∧
  m.row0.y * m.row0.z + m.row1.y * m.row1.z + m.row2.y * m.row2.z = 0 ∧
  m.row0.x * (m.row1.y * m.row2.z - m.row1.z * m.row2.y)
    - m.row0.y * (m.row1.x * m.row2.z - m.row1.z * m.row2.x)
    + m.row0.z * (m.row1.x * m.row2.y - m.row1.y * m.row2.x) = 1

/-! ## Rigid-body vocabulary for the allocation properties -/

/-- Cross product of two vectors. -/
def vector.cross {K : Type} [Field K] (a b : vector K) : vector K :=
  ⟨a.y * b.z - a.z * b.y, a.z * b.x - a.x * b.z, a.x * b.y - a.y * b.x⟩

/-- Scalar multiple of a vector. -/
def vector.smul {K : Type} [Field K] (c : K) (a : vector K) : vector K :=
  ⟨c * a.x, c * a.y, c * a.z⟩

/-- Sum of two vectors. -/
def vector.add {K : Type} [Field K] (a b : vector K) : vector K :=
  ⟨a.x + b.x, a.y + b.y, a.z + b.z⟩

/-- Sum of a list of vectors. -/
def vector.sum {K : Type} [Field K] (l : List (vector K)) : vector K :=
  l.foldr vector.add ⟨0, 0, 0⟩

/-- Thrust direction of each thruster as the spec words it: `(1,0,0)` for the two surge
thrusters, `(0,1,0)` for the two sway thrusters, `(0,0,1)` for the four heave thrusters. -/
def specDirection {K : Type} [Field K] : Thruster → vector K
  | .SPL => ⟨1, 0, 0⟩
  | .SSL => ⟨1, 0, 0⟩
  | .SWF => ⟨0, 1, 0⟩
  | .SWA => ⟨0, 1, 0⟩
  | .HPF => ⟨0, 0, 1⟩
  | .HSF => ⟨0, 0, 1⟩
  | .HPA => ⟨0, 0, 1⟩
  | .HSA => ⟨0, 0, 1⟩

/-- Net thruster force as the spec words it: the sum over thrusters of `f_k * d_k`. -/
def specNetForce {K : Type} [Field K] (F : Forces K) : vector K :=
  vector.sum (Thruster.all.map (fun k => vector.smul (F.get k) (specDirection k)))

/-- Net thruster moment as the spec words it: the sum over thrusters of
`p_k × (f_k * d_k)`. -/
def specNetMoment {K : Type} [Field K] (g : Globals K) (F : Forces K) : vector K :=
  vector.sum (Thruster.all.map
    (fun k => vector.cross (g.pos k) (vector.smul (F.get k) (specDirection k))))

/-! ## A concrete vehicle for evaluations -/

/-- The identity rotation. -/
def identity3 : Matrix3x3 ℚ :=
  ⟨⟨1, 0, 0⟩, ⟨0, 1, 0⟩, ⟨0, 0, 1⟩⟩

/-- A vehicle at rest, level, above the buoyancy threshold, with no command: mass 2 kg,
weight and buoyancy 981/50 N, inertias 1, 2, 3, thrusters a quarter to half a metre from the
centre of mass (port is `+y`, forward is `+x`, the surge and sway thrusters sit low). -/
def restVehicle : Globals ℚ where
  Ixx := 1
  Iyy := 2
  Izz := 3
  MIN_THRUST := -24
  MAX_THRUST := 24
  mass := 2
  weight := 981 / 50
  volume := 1 / 500
  buoyancy := 981 / 50
  cmdSurge := 0
  cmdSway := 0
  cmdHeave := 0
  cmdRoll := 0
  cmdPitch := 0
  cmdYaw := 0
  surge_port_lo := 0
  surge_stbd_lo := 0
  sway_fwd := 0
  sway_aft := 0
  heave_port_aft := 0
  heave_stbd_aft := 0
  heave_stbd_fwd := 0
  heave_port_fwd := 0
  enableSPL := true
  enableSSL := true
  enableSWF := true
  enableSWA := true
  enableHPF := true
  enableHSF := true
  enableHPA := true
  enableHSA := true
  isBuoyant := false
  pos_buoyancy_x := 0
  pos_buoyancy_y := 0
  pos_buoyancy_z := 0
  buoyancy_depth_thresh := 1 / 4
  R_w2b := identity3
  R_b2w := identity3
  euler_deg := ⟨0, 0, 0⟩
  euler_rpy := ⟨0, 0, 0⟩
  ang_v := ⟨0, 0, 0⟩
  pos_surge_port_lo := ⟨-1 / 4, 1 / 4, -1 / 10⟩
  pos_surge_stbd_lo := ⟨-1 / 4, -1 / 4, -1 / 10⟩
  pos_sway_fwd := ⟨1 / 2, 0, -1 / 10⟩
  pos_sway_aft := ⟨-1 / 2, 0, -1 / 10⟩
  pos_heave_port_fwd := ⟨1 / 4, 1 / 4, 0⟩
  pos_heave_port_aft := ⟨-1 / 4, 1 / 4, 0⟩
  pos_heave_stbd_fwd := ⟨1 / 4, -1 / 4, 0⟩
  pos_heave_stbd_aft := ⟨-1 / 4, -1 / 4, 0⟩
  pos_buoyancy := ⟨0, 0, 0⟩

/-- A controller state with eight thrusters for evaluations of `EOM`: unit inertias apart
from `inertia[0] = 2`, allocation entry `thrustFM[i][j] = i + j`, and small constants. -/
def sampleController : ThrusterController ℚ where
  numThrusters := 8
  thrustFM := fun i j => (i.val : ℚ) + (j.val : ℚ)
  inertia := fun i => if i = 0 then 2 else 1
  weightFM := fun i => (i.val : ℚ)
  transportThm := fun _ => 1
  command := fun i => if i = 5 then 3 else 0

/-- The vehicle at rest with a surge command of 3 m/s². -/
def surgeCommandVehicle : Globals ℚ :=
  { restVehicle with cmdSurge := 3 }

/-- Both surge thrusters disabled. -/
def surgePairDisabled : List Thruster :=
  [.SPL, .SSL]

/-- Force vector with 1 N on each surge thruster and the heave thrusters cancelling the
pitching moment of the low-mounted surge thrusters. -/
def surgePairSolution : Forces ℚ :=
  ⟨1, 1, 0, 0, -1 / 5, -1 / 5, 1 / 5, 1 / 5⟩

/-- The surge-command vehicle with the two surge thrusters mounted at the height of the
centre of mass, symmetric about the `x` axis. -/
def levelSurgeVehicle : Globals ℚ :=
  { surgeCommandVehicle with
    pos_surge_port_lo := ⟨-1 / 4, 1 / 4, 0⟩
    pos_surge_stbd_lo := ⟨-1 / 4, -1 / 4, 0⟩ }

/-! ## Enable flags and the disabled set -/

/-- The value of the enable flag of thruster `k` (`enableSPL` ... `enableHSA`). -/
def Globals.enabled {K : Type} (g : Globals K) : Thruster → Bool
  | .SPL => g.enableSPL
  | .SSL => g.enableSSL
  | .SWF => g.enableSWF
  | .SWA => g.enableSWA
  | .HPF => g.enableHPF
  | .HSF => g.enableHSF
  | .HPA => g.enableHPA
  | .HSA => g.enableHSA

/-- The assignment `enableXXX = b` to the enable flag of thruster `k`. -/
def Globals.setEnable {K : Type} (g : Globals K) (k : Thruster) (b : Bool) : Globals K :=
  match k with
  | .SPL => { g with enableSPL := b }
  | .SSL => { g with enableSSL := b }
  | .SWF => { g with enableSWF := b }
  | .SWA => { g with enableSWA := b }
  | .HPF => { g with enableHPF := b }
  | .HSF => { g with enableHSF := b }
  | .HPA => { g with enableHPA := b }
  | .HSA => { g with enableHSA := b }

/-- Modelled from the spec: the thrusters that get a disable block in the next solve.  The
code that reads the enable flags and adds the blocks is in `thruster_controller.cpp`, which
is not among the sources; following §4.4 and §4.6 the block set is rebuilt from the current
flags, one disable block per thruster whose flag is false. -/
def Globals.disabledSet {K : Type} (g : Globals K) : List Thruster :=
  Thruster.all.filter (fun k => !g.enabled k)

/-- Modelled from the spec: the objective of the solve built from the current enable flags
(§4.4), the six per-axis blocks plus the disable blocks of `disabledSet`. -/
def solveCost {K : Type} [Field K] (g : Globals K) (F : Forces K) : K :=
  totalCost g g.disabledSet F

/-! ## The hand-written equations as an instance of the generic residual -/

/-- The eight unknown forces as the array handed to `EOM::operator()`, in the order in which
the header lists the thrusters (`SPL`, `SSL`, `SWF`, `SWA`, `HPF`, `HSF`, `HPA`, `HSA`). -/
def Forces.toArray {K : Type} (F : Forces K) : Fin 8 → K :=
  ![F.surge_port_lo, F.surge_stbd_lo, F.sway_fwd, F.sway_aft, F.heave_port_fwd,
    F.heave_stbd_fwd, F.heave_port_aft, F.heave_stbd_aft]

/-- The controller state as the spec words it for the hand-written equations: eight
thrusters, `inertia = (mass, mass, mass, Ixx, Iyy, Izz)`, the six commands, `thrustFM`
filled with the unit and lever-arm coefficients of `surge` ... `yaw`, `weightFM` with the
gated weight/buoyancy terms and `transportThm` with the angular-velocity terms. -/
def specControllerOf {K : Type} [Field K] (g : Globals K) : ThrusterController K where
  numThrusters := 8
  thrustFM :=
    ![![1, 1, 0, 0, 0, 0, 0, 0],
      ![0, 0, 1, 1, 0, 0, 0, 0],
      ![0, 0, 0, 0, 1, 1, 1, 1],
      ![0, 0, -g.pos_sway_fwd.z, -g.pos_sway_aft.z, g.pos_heave_port_fwd.y,
        g.pos_heave_stbd_fwd.y, g.pos_heave_port_aft.y, g.pos_heave_stbd_aft.y],
      ![g.pos_surge_port_lo.z, g.pos_surge_stbd_lo.z, 0, 0, -g.pos_heave_port_fwd.x,
        -g.pos_heave_stbd_fwd.x, -g.pos_heave_port_aft.x, -g.pos_heave_stbd_aft.x],
      ![-g.pos_surge_port_lo.y, -g.pos_surge_stbd_lo.y, g.pos_sway_fwd.x, g.pos_sway_aft.x,
        0, 0, 0, 0]]
  inertia := ![g.mass, g.mass, g.mass, g.Ixx, g.Iyy, g.Izz]
  weightFM :=
    ![(g.R_w2b.getRow 0).z * (g.buoyancy - g.weight) * ofBool g.isBuoyant,
      (g.R_w2b.getRow 1).z * (g.buoyancy - g.weight) * ofBool g.isBuoyant,
      (g.R_w2b.getRow 2).z * (g.buoyancy - g.weight) * ofBool g.isBuoyant,
      ((g.R_w2b.getRow 1).z * g.buoyancy * (-g.pos_buoyancy.z)
        + (g.R_w2b.getRow 2).z * g.buoyancy * g.pos_buoyancy.y) * ofBool g.isBuoyant,
      ((g.R_w2b.getRow 0).z * g.buoyancy * g.pos_buoyancy.z
        + (g.R_w2b.getRow 2).z * g.buoyancy * (-g.pos_buoyancy.x)) * ofBool g.isBuoyant,
      ((g.R_w2b.getRow 0).z * g.buoyancy * (-g.pos_buoyancy.y)
        + (g.R_w2b.getRow 1).z * g.buoyancy * g.pos_buoyancy.x) * ofBool g.isBuoyant]
  transportThm :=
    ![0, 0, 0, -(g.ang_v.z * g.ang_v.y) * (g.Izz - g.Iyy),
      -(g.ang_v.x * g.ang_v.z) * (g.Ixx - g.Izz), -(g.ang_v.y * g.ang_v.x) * (g.Iyy - g.Ixx)]
  command := ![g.cmdSurge, g.cmdSway, g.cmdHeave, g.cmdRoll, g.cmdPitch, g.cmdYaw]

/-- Closed form of axis `i` of the generic residual when the inner loop stops at
`numThrusters`: only the forces with index below `numThrusters` contribute. -/
def eomResidualUpTo {K : Type} [Field K] (tc : ThrusterController K) (f : Fin 8 → K)
    (i : Fin 6) : K :=
  (∑ j : Fin 8, (if (j.val : Int) < tc.numThrusters then tc.thrustFM i j * f j else 0)
      + tc.weightFM i + tc.transportThm i) / tc.inertia i
    - tc.command i

/-! ## Vocabulary for the gyroscopic term -/

/-- The components of a `tf::Vector3` as a `vector`. -/
def Vector3.toVector {K : Type} (w : Vector3 K) : vector K :=
  ⟨w.x, w.y, w.z⟩

/-- Negation of a vector. -/
def vector.neg {K : Type} [Field K] (a : vector K) : vector K :=
  ⟨-a.x, -a.y, -a.z⟩

/-- Dot product of two vectors. -/
def vector.dot {K : Type} [Field K] (a b : vector K) : K :=
  a.x * b.x + a.y * b.y + a.z * b.z

/-- The rigid-body term `-(w × (I w))` with `I = diag(Ixx, Iyy, Izz)`. -/
def specGyroTerm {K : Type} [Field K] (g : Globals K) (w : Vector3 K) : vector K :=
  vector.neg (vector.cross w.toVector ⟨g.Ixx * w.x, g.Iyy * w.y, g.Izz * w.z⟩)

/-! ## Further concrete inputs -/

/-- Only the port surge thruster disabled. -/
def portSurgeDisabled : List Thruster :=
  [.SPL]

/-- Force vector for the surge-command vehicle that leaves the port surge thruster idle:
6 N on the starboard surge thruster, with the sway pair cancelling its yawing moment and
the heave thrusters its pitching moment. -/
def portSurgeDownSolution : Forces ℚ :=
  ⟨0, 6, -3 / 2, 3 / 2, -3 / 5, -3 / 5, 3 / 5, 3 / 5⟩

/-- The sample controller with only six thrusters in use. -/
def sixThrusterController : ThrusterController ℚ :=
  { sampleController with numThrusters := 6 }

/-- The sample controller with a zero `inertia[0]`. -/
def zeroInertiaController : ThrusterController ℚ :=
  { sampleController with inertia := fun i => if i = 0 then 0 else 1 }

/-! ## The generic residual in closed form -/

/-- The closed form of axis `i` of the generic residual. -/
def eomResidual {K : Type} [Field K] (tc : ThrusterController K) (f : Fin 8 → K)
    (i : Fin 6) : K :=
  (∑ j : Fin 8, tc.thrustFM i j * f j + tc.weightFM i + tc.transportThm i) / tc.inertia i
    - tc.command i

/-! # Theorems -/

theorem finRange_six :
    List.finRange 6 = [(0 : Fin 6), 1, 2, 3, 4, 5] := by
  decide

theorem EOM.axisBody_eight {K : Type} [Field K] (tc : ThrusterController K)
    (h8 : tc.numThrusters = 8) (f : Fin 8 → K) (i : Fin 6) (r : Fin 6 → K) :
    EOM.axisBody tc f i r = some (Function.update r i (eomResidual tc f i)) := by
  have hr : List.range (8 : Int).toNat = [0, 1, 2, 3, 4, 5, 6, 7] := by decide
  unfold EOM.axisBody
  rw [h8, hr]
  simp only [EOM.thrusterLoop, Function.update_same, Function.update_idem, eomResidual,
    Fin.sum_univ_eight]
  simp only [show (0 : Nat) < 8 by decide, show (1 : Nat) < 8 by decide,
    show (2 : Nat) < 8 by decide, show (3 : Nat) < 8 by decide, show (4 : Nat) < 8 by decide,
    show (5 : Nat) < 8 by decide, show (6 : Nat) < 8 by decide, show (7 : Nat) < 8 by decide,
    dite_true, Function.update_same, Function.update_idem]
  simp only [Fin.mk_zero, Fin.mk_one, Fin.reduceFinMk]
  refine congrArg some (congrArg (Function.update r i) ?_)
  ring

theorem EOM.call_eight {K : Type} [Field K] (tc : ThrusterController K)
    (h8 : tc.numThrusters = 8) (f : Fin 8 → K) (r : Fin 6 → K) :
    EOM.call tc f r = some (true, eomResidual tc f) := by
  unfold EOM.call
  rw [finRange_six]
  simp only [EOM.axisLoop, EOM.axisBody_eight tc h8]
  congr 2
  funext i
  fin_cases i <;> simp [Function.update]

/-- A linear system of six equations in eight unknowns has a nonzero solution. -/
theorem exists_kernel_vector {K : Type} [Field K] (A : Fin 6 → Fin 8 → K) :
    ∃ v : Fin 8 → K, v ≠ 0 ∧ ∀ i : Fin 6, ∑ j : Fin 8, A i j * v j = 0 := by
  by_contra hno
  push_neg at hno
  have hinj : Function.Injective (Matrix.mulVecLin (Matrix.of A)) := by
    rw [← LinearMap.ker_eq_bot, LinearMap.ker_eq_bot']
    intro v hv
    by_contra hne
    obtain ⟨i, hi⟩ := hno v hne
    apply hi
    have := congrFun hv i
    simpa [Matrix.mulVec, Matrix.dotProduct] using this
  have hle := LinearMap.finrank_le_finrank_of_injective hinj
  simp at hle

/-- For every geometry and every force vector there is a different force vector with the
same six hand-written residuals. -/
theorem perAxis_underdetermined {K : Type} [Field K] (g : Globals K) (F : Forces K) :
    ∃ F' : Forces K, F' ≠ F ∧
      surgeRes g F' = surgeRes g F ∧ swayRes g F' = swayRes g F ∧
      heaveRes g F' = heaveRes g F ∧ rollRes g F' = rollRes g F ∧
      pitchRes g F' = pitchRes g F ∧ yawRes g F' = yawRes g F := by
  obtain ⟨v, hv, hker⟩ := exists_kernel_vector
    (![![1, 1, 0, 0, 0, 0, 0, 0],
      ![0, 0, 1, 1, 0, 0, 0, 0],
      ![0, 0, 0, 0, 1, 1, 1, 1],
      ![0, 0, -g.pos_sway_fwd.z, -g.pos_sway_aft.z, g.pos_heave_port_fwd.y,
        g.pos_heave_stbd_fwd.y, g.pos_heave_port_aft.y, g.pos_heave_stbd_aft.y],
      ![g.pos_surge_port_lo.z, g.pos_surge_stbd_lo.z, 0, 0, -g.pos_heave_port_fwd.x,
        -g.pos_heave_stbd_fwd.x, -g.pos_heave_port_aft.x, -g.pos_heave_stbd_aft.x],
      ![-g.pos_surge_port_lo.y, -g.pos_surge_stbd_lo.y, g.pos_sway_fwd.x, g.pos_sway_aft.x,
        0, 0, 0, 0]] : Fin 6 → Fin 8 → K)
  have h0 : 1 * v 0 + 1 * v 1 + 0 * v 2 + 0 * v 3 + 0 * v 4 + 0 * v 5 + 0 * v 6 + 0 * v 7
      = 0 := by
    have h := hker 0
    rw [Fin.sum_univ_eight] at h
    exact h
  have h1 : 0 * v 0 + 0 * v 1 + 1 * v 2 + 1 * v 3 + 0 * v 4 + 0 * v 5 + 0 * v 6 + 0 * v 7
      = 0 := by
    have h := hker 1
    rw [Fin.sum_univ_eight] at h
    exact h
  have h2 : 0 * v 0 + 0 * v 1 + 0 * v 2 + 0 * v 3 + 1 * v 4 + 1 * v 5 + 1 * v 6 + 1 * v 7
      = 0 := by
    have h := hker 2
    rw [Fin.sum_univ_eight] at h
    exact h
  have h3 : 0 * v 0 + 0 * v 1 + -g.pos_sway_fwd.z * v 2 + -g.pos_sway_aft.z * v 3
      + g.pos_heave_port_fwd.y * v 4 + g.pos_heave_stbd_fwd.y * v 5
      + g.pos_heave_port_aft.y * v 6 + g.pos_heave_stbd_aft.y * v 7 = 0 := by
    have h := hker 3
    rw [Fin.sum_univ_eight] at h
    exact h
  have h4 : g.pos_surge_port_lo.z * v 0 + g.pos_surge_stbd_lo.z * v 1 + 0 * v 2 + 0 * v 3
      + -g.pos_heave_port_fwd.x * v 4 + -g.pos_heave_stbd_fwd.x * v 5
      + -g.pos_heave_port_aft.x * v 6 + -g.pos_heave_stbd_aft.x * v 7 = 0 := by
    have h := hker 4
    rw [Fin.sum_univ_eight] at h
    exact h
  have h5 : -g.pos_surge_port_lo.y * v 0 + -g.pos_surge_stbd_lo.y * v 1
      + g.pos_sway_fwd.x * v 2 + g.pos_sway_aft.x * v 3 + 0 * v 4 + 0 * v 5 + 0 * v 6
      + 0 * v 7 = 0 := by
    have h := hker 5
    rw [Fin.sum_univ_eight] at h
    exact h
  refine ⟨⟨F.surge_port_lo + v 0, F.surge_stbd_lo + v 1, F.sway_fwd + v 2, F.sway_aft + v 3,
    F.heave_port_fwd + v 4, F.heave_stbd_fwd + v 5, F.heave_port_aft + v 6,
    F.heave_stbd_aft + v 7⟩, ?_, ?_, ?_, ?_, ?_, ?_, ?_⟩
  · intro h
    apply hv
    have e0 := congrArg Forces.surge_port_lo h
    have e1 := congrArg Forces.surge_stbd_lo h
    have e2 := congrArg Forces.sway_fwd h
    have e3 := congrArg Forces.sway_aft h
    have e4 := congrArg Forces.heave_port_fwd h
    have e5 := congrArg Forces.heave_stbd_fwd h
    have e6 := congrArg Forces.heave_port_aft h
    have e7 := congrArg Forces.heave_stbd_aft h
    simp only [add_right_eq_self] at e0 e1 e2 e3 e4 e5 e6 e7
    funext j
    fin_cases j <;> simp [e0, e1, e2, e3, e4, e5, e6, e7]
  · simp only [surgeRes, surge, surgeNum]
    linear_combination (1 / g.mass) * h0
  · simp only [swayRes, sway, swayNum]
    linear_combination (1 / g.mass) * h1
  · simp only [heaveRes, heave, heaveNum]
    linear_combination (1 / g.mass) * h2
  · simp only [rollRes, roll, rollNum]
    linear_combination (1 / g.Ixx) * h3
  · simp only [pitchRes, pitch, pitchNum]
    linear_combination (1 / g.Iyy) * h4
  · simp only [yawRes, yaw, yawNum]
    linear_combination (1 / g.Izz) * h5

/-- C1: with `numThrusters = 8` the call `EOM::operator()` returns `true` and leaves in
`residual[i]`, for each axis `i` in `0..5`, the value
`(Σ_j thrustFM[i][j] * f[j] + weightFM[i] + transportThm[i]) / inertia[i] - command[i]`,
the sum ranging over `j = 0..7`, whatever the buffer held before. -/
theorem EOM_call_residual_formula {K : Type} [Field K] (tc : ThrusterController K)
    (h8 : tc.numThrusters = 8) (f : Fin 8 → K) (residual : Fin 6 → K) :
    ∃ out : Fin 6 → K, EOM.call tc f residual = some (true, out) ∧
      ∀ i : Fin 6, out i =
        (∑ j : Fin 8, tc.thrustFM i j * f j + tc.weightFM i + tc.transportThm i)
          / tc.inertia i - tc.command i :=
  ⟨eomResidual tc f, EOM.call_eight tc h8 f residual, fun _ => rfl⟩

/-- Evaluation of C1 on the sample controller with forces `f[j] = j`. -/
theorem EOM_call_residual_formula_witness :
    sampleController.numThrusters = 8 ∧
    ∃ out : Fin 6 → ℚ,
      EOM.call sampleController (fun j => (j.val : ℚ)) (fun _ => 0) = some (true, out) ∧
      ∀ i : Fin 6, out i =
        (∑ j : Fin 8, sampleController.thrustFM i j * (fun j : Fin 8 => (j.val : ℚ)) j
            + sampleController.weightFM i + sampleController.transportThm i)
          / sampleController.inertia i - sampleController.command i :=
  ⟨rfl, EOM_call_residual_formula sampleController rfl (fun j => (j.val : ℚ)) (fun _ => 0)⟩

/-- C5: the six-equation system is underdetermined.  With `numThrusters = 8` and every
`inertia[i]` nonzero, for every force vector `f` there is a different force vector `f'` at
which `EOM::operator()` returns the same six residuals as at `f`; in particular a force
vector with all six residuals zero is never the only one.  Likewise, for every geometry and
force vector `F` a different `F'` gives the same residuals of `surge` ... `yaw`. -/
theorem EOM_underdetermined {K : Type} [Field K] (tc : ThrusterController K)
    (h8 : tc.numThrusters = 8) (_hI : ∀ i : Fin 6, tc.inertia i ≠ 0) (f : Fin 8 → K)
    (g : Globals K) (F : Forces K) :
    (∃ f' : Fin 8 → K, f' ≠ f ∧
      (∀ residual : Fin 6 → K, ∃ out : Fin 6 → K,
        EOM.call tc f residual = some (true, out) ∧
        EOM.call tc f' residual = some (true, out)) ∧
      (∀ residual : Fin 6 → K, EOM.call tc f residual = some (true, fun _ => 0) →
        EOM.call tc f' residual = some (true, fun _ => 0))) ∧
    (∃ F' : Forces K, F' ≠ F ∧
      surgeRes g F' = surgeRes g F ∧ swayRes g F' = swayRes g F ∧
      heaveRes g F' = heaveRes g F ∧ rollRes g F' = rollRes g F ∧
      pitchRes g F' = pitchRes g F ∧ yawRes g F' = yawRes g F) := by
  refine ⟨?_, perAxis_underdetermined g F⟩
  obtain ⟨v, hv, hker⟩ := exists_kernel_vector tc.thrustFM
  have hsame : eomResidual tc (f + v) = eomResidual tc f := by
    funext i
    have hsum : ∑ j : Fin 8, tc.thrustFM i j * (f + v) j
        = ∑ j : Fin 8, tc.thrustFM i j * f j := by
      simp only [Pi.add_apply, mul_add, Finset.sum_add_distrib, hker i, add_zero]
    simp only [eomResidual, hsum]
  refine ⟨f + v, ?_, ?_, ?_⟩
  · intro h
    apply hv
    have : f + v = f + 0 := by simpa using h
    exact add_left_cancel this
  · intro residual
    exact ⟨eomResidual tc f, EOM.call_eight tc h8 f residual,
      by rw [EOM.call_eight tc h8 (f + v) residual, hsame]⟩
  · intro residual h0
    rw [EOM.call_eight tc h8 (f + v) residual, hsame, ← EOM.call_eight tc h8 f residual]
    exact h0

theorem sampleController_inertia_ne_zero : ∀ i : Fin 6, sampleController.inertia i ≠ 0 := by
  intro i
  simp only [sampleController]
  split <;> norm_num

/-- Evaluation of C5 on the sample controller and the vehicle at rest, at zero forces. -/
theorem EOM_underdetermined_witness :
    sampleController.numThrusters = 8 ∧ (∀ i : Fin 6, sampleController.inertia i ≠ 0) ∧
    (∃ f' : Fin 8 → ℚ, f' ≠ (fun _ => 0) ∧
      (∀ residual : Fin 6 → ℚ, ∃ out : Fin 6 → ℚ,
        EOM.call sampleController (fun _ => 0) residual = some (true, out) ∧
        EOM.call sampleController f' residual = some (true, out)) ∧
      (∀ residual : Fin 6 → ℚ,
        EOM.call sampleController (fun _ => 0) residual = some (true, fun _ => 0) →
        EOM.call sampleController f' residual = some (true, fun _ => 0))) ∧
    (∃ F' : Forces ℚ, F' ≠ Forces.zero ∧
      surgeRes restVehicle F' = surgeRes restVehicle Forces.zero ∧
      swayRes restVehicle F' = swayRes restVehicle Forces.zero ∧
      heaveRes restVehicle F' = heaveRes restVehicle Forces.zero ∧
      rollRes restVehicle F' = rollRes restVehicle Forces.zero ∧
      pitchRes restVehicle F' = pitchRes restVehicle Forces.zero ∧
      yawRes restVehicle F' = yawRes restVehicle Forces.zero) :=
  ⟨rfl, sampleController_inertia_ne_zero,
    EOM_underdetermined sampleController rfl sampleController_inertia_ne_zero (fun _ => 0)
      restVehicle Forces.zero⟩

/-! ## The objective is a sum of squares -/

theorem disable_sum_nonneg {K : Type} [LinearOrderedField K] (g : Globals K)
    (D : List Thruster) (F : Forces K) :
    0 ≤ ((D.dedup).map (fun k => disableRes g k F ^ 2)).sum := by
  apply List.sum_nonneg
  intro x hx
  obtain ⟨k, _, rfl⟩ := List.mem_map.mp hx
  positivity

theorem eomCost_nonneg {K : Type} [LinearOrderedField K] (g : Globals K) (F : Forces K) :
    0 ≤ eomCost g F := by
  unfold eomCost
  positivity

theorem totalCost_nonneg {K : Type} [LinearOrderedField K] (g : Globals K)
    (D : List Thruster) (F : Forces K) : 0 ≤ totalCost g D F :=
  add_nonneg (eomCost_nonneg g F) (disable_sum_nonneg g D F)

theorem disableRes_eq_get {K : Type} (g : Globals K) (k : Thruster) (F : Forces K) :
    disableRes g k F = F.get k := by
  cases k <;> rfl

theorem disable_sum_zero {K : Type} [Field K] (g : Globals K) (D : List Thruster) :
    ((D.dedup).map (fun k => disableRes g k (Forces.zero : Forces K) ^ 2)).sum = 0 := by
  apply List.sum_eq_zero
  intro x hx
  obtain ⟨k, _, rfl⟩ := List.mem_map.mp hx
  rw [disableRes_eq_get]
  cases k <;> simp [Forces.get, Forces.zero]

/-- C4: zero-command equilibrium.  With `isBuoyant` false, zero angular velocity, all six
commands zero and `mass`, `Ixx`, `Iyy`, `Izz` nonzero, each of `surge`, `sway`, `heave`,
`roll`, `pitch`, `yaw` returns `true` with residual exactly zero at the all-zero force
vector, for every geometry and orientation; so the all-zero vector has cost zero, the
least value the objective takes, whichever thrusters are disabled. -/
theorem zero_command_equilibrium {K : Type} [LinearOrderedField K] (g : Globals K)
    (hb : g.isBuoyant = false) (hw : g.ang_v = ⟨0, 0, 0⟩)
    (hcmd : g.cmdSurge = 0 ∧ g.cmdSway = 0 ∧ g.cmdHeave = 0 ∧
      g.cmdRoll = 0 ∧ g.cmdPitch = 0 ∧ g.cmdYaw = 0)
    (_hm : g.mass ≠ 0) (_hx : g.Ixx ≠ 0) (_hy : g.Iyy ≠ 0) (_hz : g.Izz ≠ 0) :
    surge g 0 0 = (true, 0) ∧ sway g 0 0 = (true, 0) ∧ heave g 0 0 0 0 = (true, 0) ∧
    roll g 0 0 0 0 0 0 = (true, 0) ∧ pitch g 0 0 0 0 0 0 = (true, 0) ∧
    yaw g 0 0 0 0 = (true, 0) ∧
    ∀ D : List Thruster, totalCost g D Forces.zero = 0 ∧
      ∀ F : Forces K, totalCost g D Forces.zero ≤ totalCost g D F := by
  obtain ⟨c1, c2, c3, c4, c5, c6⟩ := hcmd
  have e1 : surge g 0 0 = (true, 0) := by
    simp [surge, surgeNum, ofBool, hb, c1]
  have e2 : sway g 0 0 = (true, 0) := by
    simp [sway, swayNum, ofBool, hb, c2]
  have e3 : heave g 0 0 0 0 = (true, 0) := by
    simp [heave, heaveNum, ofBool, hb, c3]
  have e4 : roll g 0 0 0 0 0 0 = (true, 0) := by
    simp [roll, rollNum, ofBool, hb, hw, c4]
  have e5 : pitch g 0 0 0 0 0 0 = (true, 0) := by
    simp [pitch, pitchNum, ofBool, hb, hw, c5]
  have e6 : yaw g 0 0 0 0 = (true, 0) := by
    simp [yaw, yawNum, ofBool, hb, hw, c6]
  refine ⟨e1, e2, e3, e4, e5, e6, ?_⟩
  intro D
  have hz : totalCost g D Forces.zero = 0 := by
    simp [totalCost, eomCost, surgeRes, swayRes, heaveRes, rollRes, pitchRes, yawRes,
      Forces.zero, e1, e2, e3, e4, e5, e6]
    exact disable_sum_zero g D
  exact ⟨hz, fun F => hz ▸ totalCost_nonneg g D F⟩

/-- Evaluation of C4 on the vehicle at rest. -/
theorem zero_command_equilibrium_witness :
    (restVehicle.isBuoyant = false ∧ restVehicle.ang_v = ⟨0, 0, 0⟩ ∧
      restVehicle.mass ≠ 0 ∧ restVehicle.Ixx ≠ 0 ∧ restVehicle.Iyy ≠ 0 ∧
      restVehicle.Izz ≠ 0) ∧
    surge restVehicle 0 0 = (true, 0) ∧ sway restVehicle 0 0 = (true, 0) ∧
    heave restVehicle 0 0 0 0 = (true, 0) ∧ roll restVehicle 0 0 0 0 0 0 = (true, 0) ∧
    pitch restVehicle 0 0 0 0 0 0 = (true, 0) ∧ yaw restVehicle 0 0 0 0 = (true, 0) ∧
    ∀ D : List Thruster, totalCost restVehicle D Forces.zero = 0 ∧
      ∀ F : Forces ℚ, totalCost restVehicle D Forces.zero ≤ totalCost restVehicle D F :=
  ⟨⟨rfl, rfl, by norm_num [restVehicle], by norm_num [restVehicle],
      by norm_num [restVehicle], by norm_num [restVehicle]⟩,
    zero_command_equilibrium restVehicle rfl rfl ⟨rfl, rfl, rfl, rfl, rfl, rfl⟩
      (by norm_num [restVehicle]) (by norm_num [restVehicle]) (by norm_num [restVehicle])
      (by norm_num [restVehicle])⟩

/-- C6: each of the eight disable functors returns `true` with a single residual equal to
its own thruster's force and nothing else: bound to a force vector, the residual of
thruster `k` is the force of `k`, it is zero exactly when that force is zero, and it is the
same for any two global states (allocation coefficients, positions, vehicle state) and any
two force vectors that agree on the force of `k`. -/
theorem disable_residual_is_own_force {K : Type} [Field K] (g g' : Globals K)
    (F F' : Forces K) (x : K) :
    (disableSPL g x = (true, x) ∧ disableSSL g x = (true, x) ∧
      disableSWF g x = (true, x) ∧ disableSWA g x = (true, x) ∧
      disableHPF g x = (true, x) ∧ disableHSF g x = (true, x) ∧
      disableHPA g x = (true, x) ∧ disableHSA g x = (true, x)) ∧
    (∀ k : Thruster, disableRes g k F = F.get k) ∧
    (∀ k : Thruster, disableRes g k F = 0 ↔ F.get k = 0) ∧
    (∀ k : Thruster, F.get k = F'.get k → disableRes g k F = disableRes g' k F') := by
  refine ⟨⟨rfl, rfl, rfl, rfl, rfl, rfl, rfl, rfl⟩, ?_, ?_, ?_⟩
  · exact fun k => disableRes_eq_get g k F
  · intro k
    rw [disableRes_eq_get]
  · intro k h
    rw [disableRes_eq_get, disableRes_eq_get, h]

/-- Evaluation of C6 on the vehicle at rest: two force vectors that agree on
`surge_port_lo` give `disableSPL` the same residual, in two different global states. -/
theorem disable_residual_is_own_force_witness :
    Forces.get (⟨5, 1, 2, 3, 4, 6, 7, 8⟩ : Forces ℚ) Thruster.SPL
      = Forces.get (⟨5, 0, 0, 0, 0, 0, 0, 0⟩ : Forces ℚ) Thruster.SPL ∧
    disableRes restVehicle Thruster.SPL ⟨5, 1, 2, 3, 4, 6, 7, 8⟩
      = disableRes surgeCommandVehicle Thruster.SPL ⟨5, 0, 0, 0, 0, 0, 0, 0⟩ :=
  ⟨rfl,
    (disable_residual_is_own_force restVehicle surgeCommandVehicle ⟨5, 1, 2, 3, 4, 6, 7, 8⟩
      ⟨5, 0, 0, 0, 0, 0, 0, 0⟩ 0).2.2.2 Thruster.SPL rfl⟩

/-- C7: allocation follows rigid-body mechanics.  For every force vector and geometry the
numerator of `surge`, `sway`, `heave` is the `x`, `y`, `z` component of `Σ_k f_k d_k` plus
the numerator at zero forces, and the numerator of `roll`, `pitch`, `yaw` is the `x`, `y`,
`z` component of `Σ_k p_k × (f_k d_k)` plus the numerator at zero forces, where `p_k` is the
position of thruster `k` and `d_k` its unit direction (`x` for the surge thrusters, `y` for
the sway thrusters, `z` for the heave thrusters). -/
theorem allocation_rigid_body {K : Type} [Field K] (g : Globals K) (F : Forces K) :
    surgeNum g F.surge_port_lo F.surge_stbd_lo = (specNetForce F).x + surgeNum g 0 0 ∧
    swayNum g F.sway_fwd F.sway_aft = (specNetForce F).y + swayNum g 0 0 ∧
    heaveNum g F.heave_port_fwd F.heave_stbd_fwd F.heave_port_aft F.heave_stbd_aft
      = (specNetForce F).z + heaveNum g 0 0 0 0 ∧
    rollNum g F.sway_fwd F.sway_aft F.heave_port_fwd F.heave_stbd_fwd F.heave_port_aft
        F.heave_stbd_aft
      = (specNetMoment g F).x + rollNum g 0 0 0 0 0 0 ∧
    pitchNum g F.surge_port_lo F.surge_stbd_lo F.heave_port_fwd F.heave_stbd_fwd
        F.heave_port_aft F.heave_stbd_aft
      = (specNetMoment g F).y + pitchNum g 0 0 0 0 0 0 ∧
    yawNum g F.surge_port_lo F.surge_stbd_lo F.sway_fwd F.sway_aft
      = (specNetMoment g F).z + yawNum g 0 0 0 0 := by
  refine ⟨?_, ?_, ?_, ?_, ?_, ?_⟩
  · simp only [surgeNum, specNetForce, Thruster.all, List.map, vector.sum, List.foldr,
      vector.add, vector.smul, specDirection, Forces.get]
    ring
  · simp only [swayNum, specNetForce, Thruster.all, List.map, vector.sum, List.foldr,
      vector.add, vector.smul, specDirection, Forces.get]
    ring
  · simp only [heaveNum, specNetForce, Thruster.all, List.map, vector.sum, List.foldr,
      vector.add, vector.smul, specDirection, Forces.get]
    ring
  · simp only [rollNum, specNetMoment, Thruster.all, List.map, vector.sum, List.foldr,
      vector.add, vector.smul, vector.cross, specDirection, Forces.get, Globals.pos]
    ring
  · simp only [pitchNum, specNetMoment, Thruster.all, List.map, vector.sum, List.foldr,
      vector.add, vector.smul, vector.cross, specDirection, Forces.get, Globals.pos]
    ring
  · simp only [yawNum, specNetMoment, Thruster.all, List.map, vector.sum, List.foldr,
      vector.add, vector.smul, vector.cross, specDirection, Forces.get, Globals.pos]
    ring

/-- C8: weight/buoyancy term and its gate.  With `r` the `z` entries of the rows of `R_w2b`
and `gate = T(isBuoyant)` (one or zero), the numerator of `surge`, `sway`, `heave` is
`gate * r_i * (buoyancy - weight)` plus the numerator with the gate off, and the numerator
of `roll`, `pitch`, `yaw` is `gate` times the `x`, `y`, `z` component of
`pos_buoyancy × (buoyancy * r)` plus the numerator with the gate off; and when `isBuoyant`
is false all six functors return the same residual whatever `buoyancy`, `weight`, `R_w2b`
and `pos_buoyancy` are set to. -/
theorem weight_buoyancy_gate {K : Type} [Field K] (g : Globals K) (F : Forces K) :
    (surgeNum g F.surge_port_lo F.surge_stbd_lo
        = ofBool g.isBuoyant * g.rz.x * (g.buoyancy - g.weight)
          + surgeNum { g with isBuoyant := false } F.surge_port_lo F.surge_stbd_lo ∧
      swayNum g F.sway_fwd F.sway_aft
        = ofBool g.isBuoyant * g.rz.y * (g.buoyancy - g.weight)
          + swayNum { g with isBuoyant := false } F.sway_fwd F.sway_aft ∧
      heaveNum g F.heave_port_fwd F.heave_stbd_fwd F.heave_port_aft F.heave_stbd_aft
        = ofBool g.isBuoyant * g.rz.z * (g.buoyancy - g.weight)
          + heaveNum { g with isBuoyant := false } F.heave_port_fwd F.heave_stbd_fwd
              F.heave_port_aft F.heave_stbd_aft ∧
      rollNum g F.sway_fwd F.sway_aft F.heave_port_fwd F.heave_stbd_fwd F.heave_port_aft
          F.heave_stbd_aft
        = ofBool g.isBuoyant * (g.pos_buoyancy.cross (vector.smul g.buoyancy g.rz)).x
          + rollNum { g with isBuoyant := false } F.sway_fwd F.sway_aft F.heave_port_fwd
              F.heave_stbd_fwd F.heave_port_aft F.heave_stbd_aft ∧
      pitchNum g F.surge_port_lo F.surge_stbd_lo F.heave_port_fwd F.heave_stbd_fwd
          F.heave_port_aft F.heave_stbd_aft
        = ofBool g.isBuoyant * (g.pos_buoyancy.cross (vector.smul g.buoyancy g.rz)).y
          + pitchNum { g with isBuoyant := false } F.surge_port_lo F.surge_stbd_lo
              F.heave_port_fwd F.heave_stbd_fwd F.heave_port_aft F.heave_stbd_aft ∧
      yawNum g F.surge_port_lo F.surge_stbd_lo F.sway_fwd F.sway_aft
        = ofBool g.isBuoyant * (g.pos_buoyancy.cross (vector.smul g.buoyancy g.rz)).z
          + yawNum { g with isBuoyant := false } F.surge_port_lo F.surge_stbd_lo
              F.sway_fwd F.sway_aft) ∧
    (g.isBuoyant = false →
      ∀ (B W : K) (R : Matrix3x3 K) (P : vector K),
        surgeRes { g with buoyancy := B, weight := W, R_w2b := R, pos_buoyancy := P } F
          = surgeRes g F ∧
        swayRes { g with buoyancy := B, weight := W, R_w2b := R, pos_buoyancy := P } F
          = swayRes g F ∧
        heaveRes { g with buoyancy := B, weight := W, R_w2b := R, pos_buoyancy := P } F
          = heaveRes g F ∧
        rollRes { g with buoyancy := B, weight := W, R_w2b := R, pos_buoyancy := P } F
          = rollRes g F ∧
        pitchRes { g with buoyancy := B, weight := W, R_w2b := R, pos_buoyancy := P } F
          = pitchRes g F ∧
        yawRes { g with buoyancy := B, weight := W, R_w2b := R, pos_buoyancy := P } F
          = yawRes g F) := by
  refine ⟨⟨?_, ?_, ?_, ?_, ?_, ?_⟩, ?_⟩
  · simp only [surgeNum, ofBool, Globals.rz]
    cases g.isBuoyant
    · simp
    · simp
      ring
  · simp only [swayNum, ofBool, Globals.rz]
    cases g.isBuoyant
    · simp
    · simp
      ring
  · simp only [heaveNum, ofBool, Globals.rz]
    cases g.isBuoyant
    · simp
    · simp
      ring
  · simp only [rollNum, ofBool, Globals.rz, vector.cross, vector.smul]
    cases g.isBuoyant
    · simp
    · simp
      ring
  · simp only [pitchNum, ofBool, Globals.rz, vector.cross, vector.smul]
    cases g.isBuoyant
    · simp
    · simp
      ring
  · simp only [yawNum, ofBool, Globals.rz, vector.cross, vector.smul]
    cases g.isBuoyant
    · simp
    · simp
      ring
  · intro hb B W R P
    simp [surgeRes, swayRes, heaveRes, rollRes, pitchRes, yawRes, surge, sway, heave, roll,
      pitch, yaw, surgeNum, swayNum, heaveNum, rollNum, pitchNum, yawNum, ofBool, hb]

/-- Evaluation of C8 on the vehicle at rest (gate off): another buoyancy, weight, orientation
and centre of buoyancy leave the surge and roll residuals as they were. -/
theorem weight_buoyancy_gate_witness :
    restVehicle.isBuoyant = false ∧
    surgeRes { restVehicle with
        buoyancy := 20, weight := 19, R_w2b := ⟨⟨0, 0, 1⟩, ⟨0, 1, 0⟩, ⟨-1, 0, 0⟩⟩,
        pos_buoyancy := ⟨1, 2, 3⟩ } ⟨1, 2, 3, 4, 5, 6, 7, 8⟩
      = surgeRes restVehicle ⟨1, 2, 3, 4, 5, 6, 7, 8⟩ ∧
    rollRes { restVehicle with
        buoyancy := 20, weight := 19, R_w2b := ⟨⟨0, 0, 1⟩, ⟨0, 1, 0⟩, ⟨-1, 0, 0⟩⟩,
        pos_buoyancy := ⟨1, 2, 3⟩ } ⟨1, 2, 3, 4, 5, 6, 7, 8⟩
      = rollRes restVehicle ⟨1, 2, 3, 4, 5, 6, 7, 8⟩ :=
  ⟨rfl,
    ((weight_buoyancy_gate restVehicle ⟨1, 2, 3, 4, 5, 6, 7, 8⟩).2 rfl 20 19
      ⟨⟨0, 0, 1⟩, ⟨0, 1, 0⟩, ⟨-1, 0, 0⟩⟩ ⟨1, 2, 3⟩).1,
    ((weight_buoyancy_gate restVehicle ⟨1, 2, 3, 4, 5, 6, 7, 8⟩).2 rfl 20 19
      ⟨⟨0, 0, 1⟩, ⟨0, 1, 0⟩, ⟨-1, 0, 0⟩⟩ ⟨1, 2, 3⟩).2.2.2.1⟩

/-- C9: gyroscopic coupling.  For every angular velocity `w` the numerator of `roll` is its
value at zero angular velocity minus `(w.z * w.y) * (Izz - Iyy)`, so angular velocity enters
`roll` through that term only, and `surge`, `sway`, `heave` return the same residual for any
two states that differ only in `ang_v`. -/
theorem gyroscopic_coupling {K : Type} [Field K] (g : Globals K) (w : Vector3 K)
    (F : Forces K) :
    rollNum { g with ang_v := w } F.sway_fwd F.sway_aft F.heave_port_fwd F.heave_stbd_fwd
        F.heave_port_aft F.heave_stbd_aft
      = rollNum { g with ang_v := ⟨0, 0, 0⟩ } F.sway_fwd F.sway_aft F.heave_port_fwd
          F.heave_stbd_fwd F.heave_port_aft F.heave_stbd_aft
        - (w.z * w.y) * (g.Izz - g.Iyy) ∧
    roll { g with ang_v := w } F.sway_fwd F.sway_aft F.heave_port_fwd F.heave_stbd_fwd
        F.heave_port_aft F.heave_stbd_aft
      = (true,
          (rollNum { g with ang_v := ⟨0, 0, 0⟩ } F.sway_fwd F.sway_aft F.heave_port_fwd
              F.heave_stbd_fwd F.heave_port_aft F.heave_stbd_aft
            - (w.z * w.y) * (g.Izz - g.Iyy)) / g.Ixx - g.cmdRoll) ∧
    surge { g with ang_v := w } F.surge_port_lo F.surge_stbd_lo
      = surge g F.surge_port_lo F.surge_stbd_lo ∧
    sway { g with ang_v := w } F.sway_fwd F.sway_aft = sway g F.sway_fwd F.sway_aft ∧
    heave { g with ang_v := w } F.heave_port_fwd F.heave_stbd_fwd F.heave_port_aft
        F.heave_stbd_aft
      = heave g F.heave_port_fwd F.heave_stbd_fwd F.heave_port_aft F.heave_stbd_aft := by
  have h : rollNum { g with ang_v := w } F.sway_fwd F.sway_aft F.heave_port_fwd
        F.heave_stbd_fwd F.heave_port_aft F.heave_stbd_aft
      = rollNum { g with ang_v := ⟨0, 0, 0⟩ } F.sway_fwd F.sway_aft F.heave_port_fwd
          F.heave_stbd_fwd F.heave_port_aft F.heave_stbd_aft
        - (w.z * w.y) * (g.Izz - g.Iyy) := by
    simp only [rollNum]
    ring
  refine ⟨h, ?_, rfl, rfl, rfl⟩
  simp only [roll, h]

/-- C10: the calibration residuals are the angular equations with the forces held fixed and
the offset as the unknown.  With `isBuoyant` true and `Ixx`, `Iyy`, `Izz` nonzero, for every
geometry, force vector `F` and offset `C`, the residual of `roll` at `F` with
`pos_buoyancy = C` is `tuneRoll(C.y, C.z) / Ixx - cmdRoll`, that of `pitch` is
`tunePitch(C.x, C.z) / Iyy - cmdPitch` and that of `yaw` is `tuneYaw(C.x, C.y) / Izz - cmdYaw`,
the tune functors reading `F` from the solved-force globals. -/
theorem calibration_matches_angular {K : Type} [Field K] (g : Globals K)
    (hb : g.isBuoyant = true) (_hx : g.Ixx ≠ 0) (_hy : g.Iyy ≠ 0) (_hz : g.Izz ≠ 0)
    (F : Forces K) (C : vector K) :
    rollRes { g with pos_buoyancy := C } F
      = (tuneRoll (g.withForces F) C.y C.z).2 / g.Ixx - g.cmdRoll ∧
    pitchRes { g with pos_buoyancy := C } F
      = (tunePitch (g.withForces F) C.x C.z).2 / g.Iyy - g.cmdPitch ∧
    yawRes { g with pos_buoyancy := C } F
      = (tuneYaw (g.withForces F) C.x C.y).2 / g.Izz - g.cmdYaw := by
  refine ⟨?_, ?_, ?_⟩
  · simp only [rollRes, roll, rollNum, tuneRoll, Globals.withForces, ofBool, hb, if_true]
    ring
  · simp only [pitchRes, pitch, pitchNum, tunePitch, Globals.withForces, ofBool, hb, if_true]
    ring
  · simp only [yawRes, yaw, yawNum, tuneYaw, Globals.withForces, ofBool, hb, if_true]
    ring

/-- Evaluation of C10 on the rest vehicle once submerged, with a centre of buoyancy 5 cm
above the centre of mass. -/
theorem calibration_matches_angular_witness :
    ({ restVehicle with isBuoyant := true } : Globals ℚ).isBuoyant = true ∧
    rollRes { { restVehicle with isBuoyant := true } with pos_buoyancy := ⟨0, 0, 1 / 20⟩ }
        ⟨1, 2, 3, 4, 5, 6, 7, 8⟩
      = (tuneRoll (Globals.withForces { restVehicle with isBuoyant := true }
            ⟨1, 2, 3, 4, 5, 6, 7, 8⟩) 0 (1 / 20)).2
          / ({ restVehicle with isBuoyant := true } : Globals ℚ).Ixx
        - ({ restVehicle with isBuoyant := true } : Globals ℚ).cmdRoll :=
  ⟨rfl,
    (calibration_matches_angular { restVehicle with isBuoyant := true } rfl
      (by norm_num [restVehicle]) (by norm_num [restVehicle]) (by norm_num [restVehicle])
      ⟨1, 2, 3, 4, 5, 6, 7, 8⟩ ⟨0, 0, 1 / 20⟩).1⟩

/-! ## Disabled thrusters and the minimiser -/

theorem surgePair_cost (F : Forces ℚ) :
    totalCost surgeCommandVehicle surgePairDisabled F
      = 6 + 3 / 4 * (F.surge_port_lo + F.surge_stbd_lo - 2) ^ 2
        + 1 / 2 * (F.surge_port_lo - F.surge_stbd_lo) ^ 2
        + swayRes surgeCommandVehicle F ^ 2 + heaveRes surgeCommandVehicle F ^ 2
        + rollRes surgeCommandVehicle F ^ 2 + pitchRes surgeCommandVehicle F ^ 2
        + yawRes surgeCommandVehicle F ^ 2 := by
  have hd : surgePairDisabled.dedup = [Thruster.SPL, Thruster.SSL] := by decide
  have hs : surgeRes surgeCommandVehicle F
      = (F.surge_port_lo + F.surge_stbd_lo) / 2 - 3 := by
    simp [surgeRes, surge, surgeNum, surgeCommandVehicle, restVehicle, ofBool]
  simp only [totalCost, eomCost, hd, List.map, List.sum_cons, List.sum_nil, disableRes,
    disableSPL, disableSSL, hs]
  ring

theorem surgePair_cost_solution :
    totalCost surgeCommandVehicle surgePairDisabled surgePairSolution = 6 := by
  rw [surgePair_cost]
  simp [swayRes, heaveRes, rollRes, pitchRes, yawRes, sway, heave, roll, pitch, yaw,
    swayNum, heaveNum, rollNum, pitchNum, yawNum, surgeCommandVehicle, restVehicle,
    surgePairSolution, ofBool, identity3, Matrix3x3.getRow]
  norm_num

/-- C2 at its failing input: with both surge thrusters disabled and a surge command of
3 m/s² on the 2 kg vehicle at rest, the force vector with 1 N on each disabled surge
thruster minimises the objective (cost 6, against cost 9 for the all-zero vector), and every
minimiser has exactly 1 N on `surge_port_lo` and on `surge_stbd_lo`, not zero. -/
theorem disabled_surge_pair_gets_force :
    IsMinimiser surgeCommandVehicle surgePairDisabled surgePairSolution ∧
    surgePairSolution.surge_port_lo = 1 ∧ surgePairSolution.surge_stbd_lo = 1 ∧
    totalCost surgeCommandVehicle surgePairDisabled Forces.zero = 9 ∧
    ∀ F : Forces ℚ, IsMinimiser surgeCommandVehicle surgePairDisabled F →
      F.surge_port_lo = 1 ∧ F.surge_stbd_lo = 1 := by
  have hmin : IsMinimiser surgeCommandVehicle surgePairDisabled surgePairSolution := by
    intro F
    rw [surgePair_cost_solution, surgePair_cost F]
    nlinarith [sq_nonneg (F.surge_port_lo + F.surge_stbd_lo - 2),
      sq_nonneg (F.surge_port_lo - F.surge_stbd_lo), sq_nonneg (swayRes surgeCommandVehicle F),
      sq_nonneg (heaveRes surgeCommandVehicle F), sq_nonneg (rollRes surgeCommandVehicle F),
      sq_nonneg (pitchRes surgeCommandVehicle F), sq_nonneg (yawRes surgeCommandVehicle F)]
  refine ⟨hmin, rfl, rfl, ?_, ?_⟩
  · rw [surgePair_cost]
    simp [swayRes, heaveRes, rollRes, pitchRes, yawRes, sway, heave, roll, pitch, yaw,
      swayNum, heaveNum, rollNum, pitchNum, yawNum, surgeCommandVehicle, restVehicle,
      Forces.zero, ofBool, identity3, Matrix3x3.getRow]
    norm_num
  · intro F hF
    have h := hF surgePairSolution
    rw [surgePair_cost_solution, surgePair_cost F] at h
    have hsum : (F.surge_port_lo + F.surge_stbd_lo - 2) ^ 2 = 0 := by
      have := sq_nonneg (F.surge_port_lo + F.surge_stbd_lo - 2)
      nlinarith [sq_nonneg (F.surge_port_lo - F.surge_stbd_lo),
        sq_nonneg (swayRes surgeCommandVehicle F), sq_nonneg (heaveRes surgeCommandVehicle F),
        sq_nonneg (rollRes surgeCommandVehicle F), sq_nonneg (pitchRes surgeCommandVehicle F),
        sq_nonneg (yawRes surgeCommandVehicle F)]
    have hdiff : (F.surge_port_lo - F.surge_stbd_lo) ^ 2 = 0 := by
      have := sq_nonneg (F.surge_port_lo - F.surge_stbd_lo)
      nlinarith [sq_nonneg (F.surge_port_lo + F.surge_stbd_lo - 2),
        sq_nonneg (swayRes surgeCommandVehicle F), sq_nonneg (heaveRes surgeCommandVehicle F),
        sq_nonneg (rollRes surgeCommandVehicle F), sq_nonneg (pitchRes surgeCommandVehicle F),
        sq_nonneg (yawRes surgeCommandVehicle F)]
    have h1 : F.surge_port_lo + F.surge_stbd_lo - 2 = 0 := pow_eq_zero_iff (two_ne_zero) |>.mp hsum
    have h2 : F.surge_port_lo - F.surge_stbd_lo = 0 := pow_eq_zero_iff (two_ne_zero) |>.mp hdiff
    constructor <;> linarith

/-! ## Calibration: the zero set of the three residuals -/

theorem identity3_isRotation : identity3.IsRotation := by
  simp [Matrix3x3.IsRotation, identity3]

/-- C3, counterexample: on the level vehicle at rest (zero angular velocity, buoyancy
981/50 N, identity rotation, zero thruster forces) `tuneRoll`, `tunePitch` and `tuneYaw` are
all zero at the offset `(0, 0, 0)` and also at the different offset `(0, 0, 1)`. -/
theorem calibration_offset_not_unique :
    restVehicle.ang_v = ⟨0, 0, 0⟩ ∧ restVehicle.buoyancy ≠ 0 ∧
    restVehicle.R_w2b.IsRotation ∧
    tuneZero restVehicle ⟨0, 0, 0⟩ ∧ tuneZero restVehicle ⟨0, 0, 1⟩ ∧
    (⟨0, 0, 1⟩ : vector ℚ) ≠ ⟨0, 0, 0⟩ := by
  refine ⟨rfl, by norm_num [restVehicle], identity3_isRotation, ?_, ?_, ?_⟩
  · simp [tuneZero, tuneRoll, tunePitch, tuneYaw, restVehicle, identity3, Matrix3x3.getRow]
  · simp [tuneZero, tuneRoll, tunePitch, tuneYaw, restVehicle, identity3, Matrix3x3.getRow]
  · intro h
    have hz := congrArg vector.z h
    norm_num at hz

/-- C3, amended: for every stationary state, nonzero buoyancy, rotation matrix `R_w2b`,
geometry and fixed thruster forces, and every offset `Cs` at which `tuneRoll`, `tunePitch`
and `tuneYaw` are all zero, the offsets at which all three are zero are exactly
`Cs + t * r` for a scalar `t`, where `r` is the vector of the `z` entries of the rows of
`R_w2b`: the offset is determined up to its component along `r`. -/
theorem calibration_offset_unique_up_to_vertical {K : Type} [Field K] (g : Globals K)
    (_hw : g.ang_v = ⟨0, 0, 0⟩) (hB : g.buoyancy ≠ 0) (hR : g.R_w2b.IsRotation)
    (Cs C : vector K) (hs : tuneZero g Cs) :
    tuneZero g C ↔ ∃ t : K, C = vector.add Cs (vector.smul t g.rz) := by
  obtain ⟨s1, s2, s3⟩ := hs
  have hrr : (g.R_w2b.getRow 0).z * (g.R_w2b.getRow 0).z
      + (g.R_w2b.getRow 1).z * (g.R_w2b.getRow 1).z
      + (g.R_w2b.getRow 2).z * (g.R_w2b.getRow 2).z = 1 := hR.2.2.1
  simp only [tuneRoll, tunePitch, tuneYaw] at s1 s2 s3
  constructor
  · rintro ⟨c1, c2, c3⟩
    simp only [tuneRoll, tunePitch, tuneYaw] at c1 c2 c3
    have e1 : (g.R_w2b.getRow 2).z * (C.y - Cs.y) - (g.R_w2b.getRow 1).z * (C.z - Cs.z)
        = 0 := by
      apply mul_left_cancel₀ hB
      linear_combination c1 - s1
    have e2 : (g.R_w2b.getRow 0).z * (C.z - Cs.z) - (g.R_w2b.getRow 2).z * (C.x - Cs.x)
        = 0 := by
      apply mul_left_cancel₀ hB
      linear_combination c2 - s2
    have e3 : (g.R_w2b.getRow 1).z * (C.x - Cs.x) - (g.R_w2b.getRow 0).z * (C.y - Cs.y)
        = 0 := by
      apply mul_left_cancel₀ hB
      linear_combination c3 - s3
    refine ⟨(C.x - Cs.x) * (g.R_w2b.getRow 0).z + (C.y - Cs.y) * (g.R_w2b.getRow 1).z
      + (C.z - Cs.z) * (g.R_w2b.getRow 2).z, ?_⟩
    cases C with
    | mk cx cy cz =>
      simp only [vector.add, vector.smul, Globals.rz, vector.mk.injEq] at e1 e2 e3 ⊢
      refine ⟨?_, ?_, ?_⟩
      · linear_combination (-(cx - Cs.x)) * hrr + (g.R_w2b.getRow 1).z * e3
          - (g.R_w2b.getRow 2).z * e2
      · linear_combination (-(cy - Cs.y)) * hrr + (g.R_w2b.getRow 2).z * e1
          - (g.R_w2b.getRow 0).z * e3
      · linear_combination (-(cz - Cs.z)) * hrr + (g.R_w2b.getRow 0).z * e2
          - (g.R_w2b.getRow 1).z * e1
  · rintro ⟨t, rfl⟩
    simp only [tuneZero, tuneRoll, tunePitch, tuneYaw, vector.add, vector.smul, Globals.rz]
    refine ⟨?_, ?_, ?_⟩
    · linear_combination s1
    · linear_combination s2
    · linear_combination s3

/-- Evaluation of the amended C3 on the level vehicle at rest with `Cs = (0, 0, 0)`:
the residuals vanish at `(0, 0, 1)`, which is `Cs + 1 * r`. -/
theorem calibration_offset_unique_up_to_vertical_witness :
    restVehicle.ang_v = ⟨0, 0, 0⟩ ∧ restVehicle.buoyancy ≠ 0 ∧
    restVehicle.R_w2b.IsRotation ∧ tuneZero restVehicle ⟨0, 0, 0⟩ ∧
    (tuneZero restVehicle ⟨0, 0, 1⟩ ↔
      ∃ t : ℚ, (⟨0, 0, 1⟩ : vector ℚ)
        = vector.add ⟨0, 0, 0⟩ (vector.smul t restVehicle.rz)) :=
  ⟨rfl, by norm_num [restVehicle], identity3_isRotation,
    by simp [tuneZero, tuneRoll, tunePitch, tuneYaw, restVehicle, identity3,
      Matrix3x3.getRow],
    calibration_offset_unique_up_to_vertical restVehicle rfl (by norm_num [restVehicle])
      identity3_isRotation ⟨0, 0, 0⟩ ⟨0, 0, 1⟩
      (by simp [tuneZero, tuneRoll, tunePitch, tuneYaw, restVehicle, identity3,
        Matrix3x3.getRow])⟩

/-! ## Thrust limits and single-axis commands -/

/-- C11: no magnitude bound is imposed by the equations.  With the limits at their initial
values `MIN_THRUST = -24` and `MAX_THRUST = 24`, no residual of the per-axis, calibration or
disable functors changes when the two limits are given other values, and for every state
with nonzero mass there is a surge command for which every pair of surge forces that makes
the `surge` residual zero has `|surge_port_lo|` or `|surge_stbd_lo|` greater than
`MAX_THRUST`. -/
theorem no_magnitude_bound {K : Type} [LinearOrderedField K] (g : Globals K)
    (hm : g.mass ≠ 0) (_hmin : g.MIN_THRUST = -24) (hmax : g.MAX_THRUST = 24) :
    (∀ (lo hi : K) (F : Forces K) (C : vector K) (k : Thruster),
      surgeRes { g with MIN_THRUST := lo, MAX_THRUST := hi } F = surgeRes g F ∧
      swayRes { g with MIN_THRUST := lo, MAX_THRUST := hi } F = swayRes g F ∧
      heaveRes { g with MIN_THRUST := lo, MAX_THRUST := hi } F = heaveRes g F ∧
      rollRes { g with MIN_THRUST := lo, MAX_THRUST := hi } F = rollRes g F ∧
      pitchRes { g with MIN_THRUST := lo, MAX_THRUST := hi } F = pitchRes g F ∧
      yawRes { g with MIN_THRUST := lo, MAX_THRUST := hi } F = yawRes g F ∧
      tuneRoll { g with MIN_THRUST := lo, MAX_THRUST := hi } C.y C.z = tuneRoll g C.y C.z ∧
      tunePitch { g with MIN_THRUST := lo, MAX_THRUST := hi } C.x C.z
        = tunePitch g C.x C.z ∧
      tuneYaw { g with MIN_THRUST := lo, MAX_THRUST := hi } C.x C.y = tuneYaw g C.x C.y ∧
      disableRes { g with MIN_THRUST := lo, MAX_THRUST := hi } k F = disableRes g k F) ∧
    ∃ c : K, ∀ a b : K, (surge { g with cmdSurge := c } a b).2 = 0 →
      g.MAX_THRUST < |a| ∨ g.MAX_THRUST < |b| := by
  refine ⟨fun lo hi F C k => ⟨rfl, rfl, rfl, rfl, rfl, rfl, rfl, rfl, rfl, ?_⟩, ?_⟩
  · rw [disableRes_eq_get, disableRes_eq_get]
  · refine ⟨(49 + (g.R_w2b.getRow 0).z * (g.buoyancy - g.weight) * ofBool g.isBuoyant)
      / g.mass, ?_⟩
    intro a b h
    simp only [surge, surgeNum] at h
    have hsum : a + b = 49 := by
      have h2 := sub_eq_zero.mp h
      have h3 := (div_left_inj' hm).mp h2
      linear_combination h3
    rw [hmax]
    by_contra hcon
    push_neg at hcon
    have ha : a ≤ 24 := le_trans (le_abs_self a) hcon.1
    have hb : b ≤ 24 := le_trans (le_abs_self b) hcon.2
    linarith

/-- Evaluation of C11 on the vehicle at rest, whose limits are -24 and 24. -/
theorem no_magnitude_bound_witness :
    restVehicle.mass ≠ 0 ∧ restVehicle.MIN_THRUST = -24 ∧ restVehicle.MAX_THRUST = 24 ∧
    ∃ c : ℚ, ∀ a b : ℚ, (surge { restVehicle with cmdSurge := c } a b).2 = 0 →
      restVehicle.MAX_THRUST < |a| ∨ restVehicle.MAX_THRUST < |b| :=
  ⟨by norm_num [restVehicle], rfl, rfl,
    (no_magnitude_bound restVehicle (by norm_num [restVehicle]) rfl rfl).2⟩

theorem surgeCommandVehicle_residuals (F : Forces ℚ) :
    surgeRes surgeCommandVehicle F = (F.surge_port_lo + F.surge_stbd_lo) / 2 - 3 ∧
    pitchRes surgeCommandVehicle F
      = (F.surge_port_lo * (-1 / 10) + F.surge_stbd_lo * (-1 / 10)
          + F.heave_port_fwd * (-(1 / 4)) + F.heave_stbd_fwd * (-(1 / 4))
          + F.heave_port_aft * (1 / 4) + F.heave_stbd_aft * (1 / 4)) / 2 := by
  constructor
  · simp [surgeRes, surge, surgeNum, surgeCommandVehicle, restVehicle, ofBool]
  · simp [pitchRes, pitch, pitchNum, surgeCommandVehicle, restVehicle, ofBool]
    ring

/-- C12, counterexample: on the vehicle at rest with `cmdSurge = 3` (mass 2, inertias 1, 2,
3, `isBuoyant` false, zero angular velocity, other commands zero, both surge thrusters
0.1 m below the centre of mass) no force vector with both sway forces and all four heave
forces zero makes the six residuals zero: a zero `surge` residual needs
`surge_port_lo + surge_stbd_lo = 6`, which leaves the `pitch` residual at `-3/10`. -/
theorem surge_isolation_fails :
    (surgeCommandVehicle.isBuoyant = false ∧ surgeCommandVehicle.ang_v = ⟨0, 0, 0⟩ ∧
      surgeCommandVehicle.cmdSurge ≠ 0 ∧ surgeCommandVehicle.cmdSway = 0 ∧
      surgeCommandVehicle.cmdHeave = 0 ∧ surgeCommandVehicle.cmdRoll = 0 ∧
      surgeCommandVehicle.cmdPitch = 0 ∧ surgeCommandVehicle.cmdYaw = 0 ∧
      surgeCommandVehicle.mass ≠ 0 ∧ surgeCommandVehicle.Ixx ≠ 0 ∧
      surgeCommandVehicle.Iyy ≠ 0 ∧ surgeCommandVehicle.Izz ≠ 0) ∧
    ¬ ∃ F : Forces ℚ,
      (F.sway_fwd = 0 ∧ F.sway_aft = 0 ∧ F.heave_port_fwd = 0 ∧ F.heave_stbd_fwd = 0 ∧
        F.heave_port_aft = 0 ∧ F.heave_stbd_aft = 0) ∧
      surgeRes surgeCommandVehicle F = 0 ∧ swayRes surgeCommandVehicle F = 0 ∧
      heaveRes surgeCommandVehicle F = 0 ∧ rollRes surgeCommandVehicle F = 0 ∧
      pitchRes surgeCommandVehicle F = 0 ∧ yawRes surgeCommandVehicle F = 0 := by
  refine ⟨⟨rfl, rfl, by norm_num [surgeCommandVehicle], rfl, rfl, rfl, rfl, rfl,
    by norm_num [surgeCommandVehicle, restVehicle], by norm_num [surgeCommandVehicle, restVehicle],
    by norm_num [surgeCommandVehicle, restVehicle],
    by norm_num [surgeCommandVehicle, restVehicle]⟩, ?_⟩
  rintro ⟨F, ⟨_, _, h1, h2, h3, h4⟩, hs, _, _, _, hp, _⟩
  rw [(surgeCommandVehicle_residuals F).1] at hs
  rw [(surgeCommandVehicle_residuals F).2, h1, h2, h3, h4] at hp
  linarith

/-- C12, amended: with `isBuoyant` false, zero angular velocity, `cmdSurge ≠ 0`, the other
five commands zero and nonzero mass and inertias, some force vector with both sway forces
and all four heave forces zero makes the six residuals zero if and only if the surge pair
can carry the command without pitch or yaw moment: surge forces `a`, `b` exist with
`a + b = mass * cmdSurge`, `a * pos_surge_port_lo.z + b * pos_surge_stbd_lo.z = 0` and
`a * pos_surge_port_lo.y + b * pos_surge_stbd_lo.y = 0`. -/
theorem surge_isolation_iff {K : Type} [Field K] (g : Globals K)
    (hb : g.isBuoyant = false) (hw : g.ang_v = ⟨0, 0, 0⟩) (_hc : g.cmdSurge ≠ 0)
    (hcmd : g.cmdSway = 0 ∧ g.cmdHeave = 0 ∧ g.cmdRoll = 0 ∧ g.cmdPitch = 0 ∧ g.cmdYaw = 0)
    (hm : g.mass ≠ 0) (_hx : g.Ixx ≠ 0) (hy : g.Iyy ≠ 0) (hz : g.Izz ≠ 0) :
    (∃ F : Forces K,
      (F.sway_fwd = 0 ∧ F.sway_aft = 0 ∧ F.heave_port_fwd = 0 ∧ F.heave_stbd_fwd = 0 ∧
        F.heave_port_aft = 0 ∧ F.heave_stbd_aft = 0) ∧
      surgeRes g F = 0 ∧ swayRes g F = 0 ∧ heaveRes g F = 0 ∧ rollRes g F = 0 ∧
      pitchRes g F = 0 ∧ yawRes g F = 0) ↔
    ∃ a b : K, a + b = g.mass * g.cmdSurge ∧
      a * g.pos_surge_port_lo.z + b * g.pos_surge_stbd_lo.z = 0 ∧
      a * g.pos_surge_port_lo.y + b * g.pos_surge_stbd_lo.y = 0 := by
  obtain ⟨c2, c3, c4, c5, c6⟩ := hcmd
  constructor
  · rintro ⟨F, ⟨f1, f2, f3, f4, f5, f6⟩, hs, _, _, _, hp, hyw⟩
    refine ⟨F.surge_port_lo, F.surge_stbd_lo, ?_, ?_, ?_⟩
    · simp only [surgeRes, surge, surgeNum, ofBool, hb] at hs
      have h2 := sub_eq_zero.mp hs
      rw [div_eq_iff hm] at h2
      simp at h2
      linear_combination h2
    · simp only [pitchRes, pitch, pitchNum, ofBool, hb, hw, c5, f3, f4, f5, f6] at hp
      have h2 := sub_eq_zero.mp hp
      rw [div_eq_iff hy] at h2
      simp at h2
      linear_combination h2
    · simp only [yawRes, yaw, yawNum, ofBool, hb, hw, c6, f1, f2] at hyw
      have h2 := sub_eq_zero.mp hyw
      rw [div_eq_iff hz] at h2
      simp at h2
      linear_combination -h2
  · rintro ⟨a, b, h1, h2, h3⟩
    refine ⟨⟨a, b, 0, 0, 0, 0, 0, 0⟩, ⟨rfl, rfl, rfl, rfl, rfl, rfl⟩, ?_, ?_, ?_, ?_, ?_, ?_⟩
    · simp only [surgeRes, surge, surgeNum, ofBool, hb]
      rw [sub_eq_zero, div_eq_iff hm]
      simp
      linear_combination h1
    · simp [swayRes, sway, swayNum, ofBool, hb, c2]
    · simp [heaveRes, heave, heaveNum, ofBool, hb, c3]
    · simp [rollRes, roll, rollNum, ofBool, hb, hw, c4]
    · simp only [pitchRes, pitch, pitchNum, ofBool, hb, hw, c5]
      rw [sub_eq_zero, div_eq_iff hy]
      simp
      linear_combination h2
    · simp only [yawRes, yaw, yawNum, ofBool, hb, hw, c6]
      rw [sub_eq_zero, div_eq_iff hz]
      simp
      linear_combination -h3

/-- Evaluation of the amended C12 on the surge-command vehicle with level, symmetric surge
thrusters: 3 N on each surge thruster and nothing else makes the six residuals zero. -/
theorem surge_isolation_iff_witness :
    (levelSurgeVehicle.isBuoyant = false ∧ levelSurgeVehicle.ang_v = ⟨0, 0, 0⟩ ∧
      levelSurgeVehicle.cmdSurge ≠ 0 ∧ levelSurgeVehicle.mass ≠ 0 ∧
      levelSurgeVehicle.Ixx ≠ 0 ∧ levelSurgeVehicle.Iyy ≠ 0 ∧ levelSurgeVehicle.Izz ≠ 0) ∧
    ∃ F : Forces ℚ,
      (F.sway_fwd = 0 ∧ F.sway_aft = 0 ∧ F.heave_port_fwd = 0 ∧ F.heave_stbd_fwd = 0 ∧
        F.heave_port_aft = 0 ∧ F.heave_stbd_aft = 0) ∧
      surgeRes levelSurgeVehicle F = 0 ∧ swayRes levelSurgeVehicle F = 0 ∧
      heaveRes levelSurgeVehicle F = 0 ∧ rollRes levelSurgeVehicle F = 0 ∧
      pitchRes levelSurgeVehicle F = 0 ∧ yawRes levelSurgeVehicle F = 0 :=
  ⟨⟨rfl, rfl, by norm_num [levelSurgeVehicle, surgeCommandVehicle],
      by norm_num [levelSurgeVehicle, surgeCommandVehicle, restVehicle],
      by norm_num [levelSurgeVehicle, surgeCommandVehicle, restVehicle],
      by norm_num [levelSurgeVehicle, surgeCommandVehicle, restVehicle],
      by norm_num [levelSurgeVehicle, surgeCommandVehicle, restVehicle]⟩,
    (surge_isolation_iff levelSurgeVehicle rfl rfl
      (by norm_num [levelSurgeVehicle, surgeCommandVehicle]) ⟨rfl, rfl, rfl, rfl, rfl⟩
      (by norm_num [levelSurgeVehicle, surgeCommandVehicle, restVehicle])
      (by norm_num [levelSurgeVehicle, surgeCommandVehicle, restVehicle])
      (by norm_num [levelSurgeVehicle, surgeCommandVehicle, restVehicle])
      (by norm_num [levelSurgeVehicle, surgeCommandVehicle, restVehicle])).mpr
      ⟨3, 3, by norm_num [levelSurgeVehicle, surgeCommandVehicle, restVehicle],
        by norm_num [levelSurgeVehicle, surgeCommandVehicle, restVehicle],
        by norm_num [levelSurgeVehicle, surgeCommandVehicle, restVehicle]⟩⟩

/-! ## Disabling and re-enabling a thruster -/

theorem Globals.enabled_setEnable {K : Type} (g : Globals K) (j k : Thruster) (b : Bool) :
    (g.setEnable j b).enabled k = if k = j then b else g.enabled k := by
  cases j <;> cases k <;> simp [Globals.setEnable, Globals.enabled]

theorem Globals.setEnable_restore {K : Type} (g : Globals K) (j : Thruster)
    (hj : g.enabled j = true) : (g.setEnable j false).setEnable j true = g := by
  cases g
  cases j <;> simp_all [Globals.setEnable, Globals.enabled]

theorem Globals.disabledSet_all_enabled {K : Type} (g : Globals K)
    (hall : ∀ k : Thruster, g.enabled k = true) : g.disabledSet = [] := by
  simp [Globals.disabledSet, hall]

theorem Globals.disabledSet_setEnable_false {K : Type} (g : Globals K) (j : Thruster)
    (hall : ∀ k : Thruster, g.enabled k = true) : (g.setEnable j false).disabledSet = [j] := by
  cases j <;>
    simp [Globals.disabledSet, Thruster.all, Globals.enabled_setEnable, hall, List.filter]

theorem eomCost_setEnable {K : Type} [Field K] (g : Globals K) (j : Thruster) (b : Bool)
    (F : Forces K) : eomCost (g.setEnable j b) F = eomCost g F := by
  cases j <;> rfl

/-- C13: disable idempotence.  Starting from a state with every thruster enabled, whose
objective is the sum of squares of the six equations alone, clearing the enable flag of
thruster `j` adds the square of `j`'s force to the objective, and setting the flag again
gives back the original state, hence the original objective and the same minimising force
vectors; neither assignment changes a thruster position or any of the six residuals. -/
theorem disable_idempotence {K : Type} [LinearOrderedField K] (g : Globals K) (j : Thruster)
    (hall : ∀ k : Thruster, g.enabled k = true) (F : Forces K) :
    solveCost g F = eomCost g F ∧
    solveCost (g.setEnable j false) F = eomCost g F + F.get j ^ 2 ∧
    solveCost ((g.setEnable j false).setEnable j true) F = eomCost g F ∧
    ((∀ F' : Forces K, solveCost ((g.setEnable j false).setEnable j true) F
        ≤ solveCost ((g.setEnable j false).setEnable j true) F') ↔
      ∀ F' : Forces K, solveCost g F ≤ solveCost g F') ∧
    (∀ k : Thruster, (g.setEnable j false).pos k = g.pos k ∧
      ((g.setEnable j false).setEnable j true).pos k = g.pos k) ∧
    (surgeRes (g.setEnable j false) F = surgeRes g F ∧
      swayRes (g.setEnable j false) F = swayRes g F ∧
      heaveRes (g.setEnable j false) F = heaveRes g F ∧
      rollRes (g.setEnable j false) F = rollRes g F ∧
      pitchRes (g.setEnable j false) F = pitchRes g F ∧
      yawRes (g.setEnable j false) F = yawRes g F) := by
  have hback := Globals.setEnable_restore g j (hall j)
  have h0 : solveCost g F = eomCost g F := by
    simp [solveCost, totalCost, Globals.disabledSet_all_enabled g hall]
  refine ⟨h0, ?_, ?_, ?_, ?_, ?_⟩
  · simp [solveCost, totalCost, Globals.disabledSet_setEnable_false g j hall,
      eomCost_setEnable, disableRes_eq_get]
  · rw [hback, h0]
  · rw [hback]
  · intro k
    rw [hback]
    exact ⟨by cases j <;> rfl, rfl⟩
  · refine ⟨?_, ?_, ?_, ?_, ?_, ?_⟩ <;> cases j <;> rfl

theorem restVehicle_all_enabled : ∀ k : Thruster, restVehicle.enabled k = true := by
  intro k
  cases k <;> rfl

/-- Evaluation of C13 on the vehicle at rest and the thruster `heave_port_fwd`. -/
theorem disable_idempotence_witness :
    (∀ k : Thruster, restVehicle.enabled k = true) ∧
    solveCost (restVehicle.setEnable Thruster.HPF false) ⟨1, 2, 3, 4, 5, 6, 7, 8⟩
      = eomCost restVehicle ⟨1, 2, 3, 4, 5, 6, 7, 8⟩
        + Forces.get (⟨1, 2, 3, 4, 5, 6, 7, 8⟩ : Forces ℚ) Thruster.HPF ^ 2 ∧
    solveCost ((restVehicle.setEnable Thruster.HPF false).setEnable Thruster.HPF true)
        ⟨1, 2, 3, 4, 5, 6, 7, 8⟩
      = eomCost restVehicle ⟨1, 2, 3, 4, 5, 6, 7, 8⟩ :=
  ⟨restVehicle_all_enabled,
    (disable_idempotence restVehicle Thruster.HPF restVehicle_all_enabled
      ⟨1, 2, 3, 4, 5, 6, 7, 8⟩).2.1,
    (disable_idempotence restVehicle Thruster.HPF restVehicle_all_enabled
      ⟨1, 2, 3, 4, 5, 6, 7, 8⟩).2.2.1⟩

/-! ## The generic residual reproduces the hand-written equations -/

theorem eomResidual_specControllerOf {K : Type} [Field K] (g : Globals K) (F : Forces K) :
    eomResidual (specControllerOf g) F.toArray
      = ![surgeRes g F, swayRes g F, heaveRes g F, rollRes g F, pitchRes g F, yawRes g F] := by
  funext i
  fin_cases i
  · show (∑ j : Fin 8, (specControllerOf g).thrustFM 0 j * F.toArray j
        + (specControllerOf g).weightFM 0 + (specControllerOf g).transportThm 0)
        / (specControllerOf g).inertia 0 - (specControllerOf g).command 0 = surgeRes g F
    rw [Fin.sum_univ_eight]
    show (1 * F.surge_port_lo + 1 * F.surge_stbd_lo + 0 * F.sway_fwd + 0 * F.sway_aft
        + 0 * F.heave_port_fwd + 0 * F.heave_stbd_fwd + 0 * F.heave_port_aft
        + 0 * F.heave_stbd_aft
        + (g.R_w2b.getRow 0).z * (g.buoyancy - g.weight) * ofBool g.isBuoyant + 0)
        / g.mass - g.cmdSurge = surgeRes g F
    simp only [surgeRes, surge, surgeNum]
    ring
  · show (∑ j : Fin 8, (specControllerOf g).thrustFM 1 j * F.toArray j
        + (specControllerOf g).weightFM 1 + (specControllerOf g).transportThm 1)
        / (specControllerOf g).inertia 1 - (specControllerOf g).command 1 = swayRes g F
    rw [Fin.sum_univ_eight]
    show (0 * F.surge_port_lo + 0 * F.surge_stbd_lo + 1 * F.sway_fwd + 1 * F.sway_aft
        + 0 * F.heave_port_fwd + 0 * F.heave_stbd_fwd + 0 * F.heave_port_aft
        + 0 * F.heave_stbd_aft
        + (g.R_w2b.getRow 1).z * (g.buoyancy - g.weight) * ofBool g.isBuoyant + 0)
        / g.mass - g.cmdSway = swayRes g F
    simp only [swayRes, sway, swayNum]
    ring
  · show (∑ j : Fin 8, (specControllerOf g).thrustFM 2 j * F.toArray j
        + (specControllerOf g).weightFM 2 + (specControllerOf g).transportThm 2)
        / (specControllerOf g).inertia 2 - (specControllerOf g).command 2 = heaveRes g F
    rw [Fin.sum_univ_eight]
    show (0 * F.surge_port_lo + 0 * F.surge_stbd_lo + 0 * F.sway_fwd + 0 * F.sway_aft
        + 1 * F.heave_port_fwd + 1 * F.heave_stbd_fwd + 1 * F.heave_port_aft
        + 1 * F.heave_stbd_aft
        + (g.R_w2b.getRow 2).z * (g.buoyancy - g.weight) * ofBool g.isBuoyant + 0)
        / g.mass - g.cmdHeave = heaveRes g F
    simp only [heaveRes, heave, heaveNum]
    ring
  · show (∑ j : Fin 8, (specControllerOf g).thrustFM 3 j * F.toArray j
        + (specControllerOf g).weightFM 3 + (specControllerOf g).transportThm 3)
        / (specControllerOf g).inertia 3 - (specControllerOf g).command 3 = rollRes g F
    rw [Fin.sum_univ_eight]
    show (0 * F.surge_port_lo + 0 * F.surge_stbd_lo + -g.pos_sway_fwd.z * F.sway_fwd
        + -g.pos_sway_aft.z * F.sway_aft + g.pos_heave_port_fwd.y * F.heave_port_fwd
        + g.pos_heave_stbd_fwd.y * F.heave_stbd_fwd
        + g.pos_heave_port_aft.y * F.heave_port_aft
        + g.pos_heave_stbd_aft.y * F.heave_stbd_aft
        + ((g.R_w2b.getRow 1).z * g.buoyancy * (-g.pos_buoyancy.z)
          + (g.R_w2b.getRow 2).z * g.buoyancy * g.pos_buoyancy.y) * ofBool g.isBuoyant
        + -(g.ang_v.z * g.ang_v.y) * (g.Izz - g.Iyy))
        / g.Ixx - g.cmdRoll = rollRes g F
    simp only [rollRes, roll, rollNum]
    ring
  · show (∑ j : Fin 8, (specControllerOf g).thrustFM 4 j * F.toArray j
        + (specControllerOf g).weightFM 4 + (specControllerOf g).transportThm 4)
        / (specControllerOf g).inertia 4 - (specControllerOf g).command 4 = pitchRes g F
    rw [Fin.sum_univ_eight]
    show (g.pos_surge_port_lo.z * F.surge_port_lo + g.pos_surge_stbd_lo.z * F.surge_stbd_lo
        + 0 * F.sway_fwd + 0 * F.sway_aft + -g.pos_heave_port_fwd.x * F.heave_port_fwd
        + -g.pos_heave_stbd_fwd.x * F.heave_stbd_fwd
        + -g.pos_heave_port_aft.x * F.heave_port_aft
        + -g.pos_heave_stbd_aft.x * F.heave_stbd_aft
        + ((g.R_w2b.getRow 0).z * g.buoyancy * g.pos_buoyancy.z
          + (g.R_w2b.getRow 2).z * g.buoyancy * (-g.pos_buoyancy.x)) * ofBool g.isBuoyant
        + -(g.ang_v.x * g.ang_v.z) * (g.Ixx - g.Izz))
        / g.Iyy - g.cmdPitch = pitchRes g F
    simp only [pitchRes, pitch, pitchNum]
    ring
  · show (∑ j : Fin 8, (specControllerOf g).thrustFM 5 j * F.toArray j
        + (specControllerOf g).weightFM 5 + (specControllerOf g).transportThm 5)
        / (specControllerOf g).inertia 5 - (specControllerOf g).command 5 = yawRes g F
    rw [Fin.sum_univ_eight]
    show (-g.pos_surge_port_lo.y * F.surge_port_lo + -g.pos_surge_stbd_lo.y * F.surge_stbd_lo
        + g.pos_sway_fwd.x * F.sway_fwd + g.pos_sway_aft.x * F.sway_aft
        + 0 * F.heave_port_fwd + 0 * F.heave_stbd_fwd + 0 * F.heave_port_aft
        + 0 * F.heave_stbd_aft
        + ((g.R_w2b.getRow 0).z * g.buoyancy * (-g.pos_buoyancy.y)
          + (g.R_w2b.getRow 1).z * g.buoyancy * g.pos_buoyancy.x) * ofBool g.isBuoyant
        + -(g.ang_v.y * g.ang_v.x) * (g.Iyy - g.Ixx))
        / g.Izz - g.cmdYaw = yawRes g F
    simp only [yawRes, yaw, yawNum]
    ring

/-- C14: the six hand-written residuals are an instance of the generic residual.  On the
controller state with `numThrusters = 8`, `inertia = (mass, mass, mass, Ixx, Iyy, Izz)`, the
six commands, `thrustFM` filled with the unit and lever-arm coefficients of `surge` ...
`yaw`, `weightFM` with the gated weight/buoyancy terms and `transportThm` with the
angular-velocity terms, `EOM::operator()` returns `true` and, for every force vector, writes
exactly the residuals of `surge`, `sway`, `heave`, `roll`, `pitch`, `yaw`, in that order. -/
theorem EOM_refines_per_axis {K : Type} [Field K] (g : Globals K) (F : Forces K)
    (residual : Fin 6 → K) :
    (specControllerOf g).numThrusters = 8 ∧
    EOM.call (specControllerOf g) F.toArray residual
      = some (true,
          ![(surge g F.surge_port_lo F.surge_stbd_lo).2,
            (sway g F.sway_fwd F.sway_aft).2,
            (heave g F.heave_port_fwd F.heave_stbd_fwd F.heave_port_aft F.heave_stbd_aft).2,
            (roll g F.sway_fwd F.sway_aft F.heave_port_fwd F.heave_stbd_fwd F.heave_port_aft
              F.heave_stbd_aft).2,
            (pitch g F.surge_port_lo F.surge_stbd_lo F.heave_port_fwd F.heave_stbd_fwd
              F.heave_port_aft F.heave_stbd_aft).2,
            (yaw g F.surge_port_lo F.surge_stbd_lo F.sway_fwd F.sway_aft).2]) := by
  refine ⟨rfl, ?_⟩
  rw [EOM.call_eight (specControllerOf g) rfl, eomResidual_specControllerOf]
  rfl

/-! ## The generic residual for any thruster count up to eight -/

theorem EOM.thrusterLoop_append {K : Type} [Field K] (tc : ThrusterController K)
    (f : Fin 8 → K) (i : Fin 6) (l1 l2 : List Nat) (r : Fin 6 → K) :
    EOM.thrusterLoop tc f i (l1 ++ l2) r
      = (EOM.thrusterLoop tc f i l1 r).bind (EOM.thrusterLoop tc f i l2) := by
  induction l1 generalizing r with
  | nil => simp [EOM.thrusterLoop]
  | cons j js ih =>
    simp only [List.cons_append, EOM.thrusterLoop]
    split
    · exact ih _
    · rfl

theorem sum_below_succ {K : Type} [Field K] (a : Fin 8 → K) (n : Nat) (hn : n < 8) :
    ∑ j : Fin 8, (if j.val < n + 1 then a j else 0)
      = ∑ j : Fin 8, (if j.val < n then a j else 0) + a ⟨n, hn⟩ := by
  have hsplit : ∀ j : Fin 8, (if j.val < n + 1 then a j else 0)
      = (if j.val < n then a j else 0) + (if j = ⟨n, hn⟩ then a j else 0) := by
    intro j
    by_cases h1 : j.val < n
    · have h2 : j ≠ ⟨n, hn⟩ := by
        intro h
        rw [h] at h1
        exact lt_irrefl n h1
      have h3 : j.val < n + 1 := by omega
      simp [h1, h2, h3]
    · by_cases h2 : j = ⟨n, hn⟩
      · subst h2
        simp
      · have h3 : ¬ j.val < n + 1 := by
          intro h
          apply h2
          apply Fin.ext
          show j.val = n
          omega
        simp [h1, h2, h3]
  simp only [hsplit, Finset.sum_add_distrib, Finset.sum_ite_eq', Finset.mem_univ, if_true]

theorem EOM.thrusterLoop_range {K : Type} [Field K] (tc : ThrusterController K)
    (f : Fin 8 → K) (i : Fin 6) (n : Nat) (hn : n ≤ 8) (r : Fin 6 → K) :
    EOM.thrusterLoop tc f i (List.range n) r
      = some (Function.update r i
          (r i + ∑ j : Fin 8, if j.val < n then tc.thrustFM i j * f j else 0)) := by
  induction n with
  | zero => simp [EOM.thrusterLoop]
  | succ n ih =>
    have hn' : n < 8 := hn
    rw [List.range_succ, EOM.thrusterLoop_append, ih (by omega)]
    simp only [Option.bind, EOM.thrusterLoop, dif_pos hn', Function.update_same,
      Function.update_idem]
    rw [sum_below_succ (fun j => tc.thrustFM i j * f j) n hn', add_assoc]

theorem EOM.axisBody_le_eight {K : Type} [Field K] (tc : ThrusterController K)
    (h8 : tc.numThrusters ≤ 8) (f : Fin 8 → K) (i : Fin 6) (r : Fin 6 → K) :
    EOM.axisBody tc f i r = some (Function.update r i (eomResidualUpTo tc f i)) := by
  have hm : tc.numThrusters.toNat ≤ 8 := by omega
  have hlt : ∀ j : Fin 8, ((j.val : Int) < tc.numThrusters) ↔ j.val < tc.numThrusters.toNat := by
    intro j
    omega
  unfold EOM.axisBody eomResidualUpTo
  simp only [hlt, EOM.thrusterLoop_range tc f i _ hm, Function.update_same,
    Function.update_idem, zero_add]
  refine congrArg some (congrArg (Function.update r i) ?_)
  ring

theorem EOM.call_le_eight {K : Type} [Field K] (tc : ThrusterController K)
    (h8 : tc.numThrusters ≤ 8) (f : Fin 8 → K) (r : Fin 6 → K) :
    EOM.call tc f r = some (true, eomResidualUpTo tc f) := by
  unfold EOM.call
  rw [finRange_six]
  simp only [EOM.axisLoop, EOM.axisBody_le_eight tc h8]
  congr 2
  funext i
  fin_cases i <;> simp [Function.update]

/-- C15: Jacobians.  With `numThrusters = 8` and every `inertia[i]` nonzero, for all force
vectors `f` and `f'` the residuals written by `EOM::operator()` differ by
`(Σ_j thrustFM[i][j] * (f[j] - f'[j])) / inertia[i]` on each axis `i`, so the residual is
affine in the forces with constant Jacobian `thrustFM[i][j] / inertia[i]`; and the residual
of each disable functor differs by exactly the difference of its own force. -/
theorem EOM_jacobian {K : Type} [Field K] (tc : ThrusterController K)
    (h8 : tc.numThrusters = 8) (_hI : ∀ i : Fin 6, tc.inertia i ≠ 0) (f f' : Fin 8 → K)
    (residual : Fin 6 → K) (g : Globals K) (F F' : Forces K) :
    (∃ out out' : Fin 6 → K,
      EOM.call tc f residual = some (true, out) ∧
      EOM.call tc f' residual = some (true, out') ∧
      ∀ i : Fin 6, out i - out' i
        = (∑ j : Fin 8, tc.thrustFM i j * (f j - f' j)) / tc.inertia i) ∧
    ∀ k : Thruster, disableRes g k F - disableRes g k F' = F.get k - F'.get k := by
  refine ⟨⟨eomResidual tc f, eomResidual tc f', EOM.call_eight tc h8 f residual,
    EOM.call_eight tc h8 f' residual, ?_⟩, ?_⟩
  · intro i
    simp only [eomResidual, mul_sub, Finset.sum_sub_distrib]
    ring
  · intro k
    rw [disableRes_eq_get, disableRes_eq_get]

/-- Evaluation of C15 on the sample controller at the force vectors `f[j] = j` and zero. -/
theorem EOM_jacobian_witness :
    sampleController.numThrusters = 8 ∧ (∀ i : Fin 6, sampleController.inertia i ≠ 0) ∧
    ∃ out out' : Fin 6 → ℚ,
      EOM.call sampleController (fun j => (j.val : ℚ)) (fun _ => 0) = some (true, out) ∧
      EOM.call sampleController (fun _ => 0) (fun _ => 0) = some (true, out') ∧
      ∀ i : Fin 6, out i - out' i
        = (∑ j : Fin 8, sampleController.thrustFM i j
            * ((fun j : Fin 8 => (j.val : ℚ)) j - (fun _ : Fin 8 => (0 : ℚ)) j))
          / sampleController.inertia i :=
  ⟨rfl, sampleController_inertia_ne_zero,
    (EOM_jacobian sampleController rfl sampleController_inertia_ne_zero
      (fun j => (j.val : ℚ)) (fun _ => 0) (fun _ => 0) restVehicle Forces.zero
      Forces.zero).1⟩

/-! ## Fault accommodation when the command stays feasible -/

theorem sq_eq_zero_of_six {K : Type} [LinearOrderedField K] (a b c d e f : K)
    (h : a ^ 2 + b ^ 2 + c ^ 2 + d ^ 2 + e ^ 2 + f ^ 2 = 0) :
    a = 0 ∧ b = 0 ∧ c = 0 ∧ d = 0 ∧ e = 0 ∧ f = 0 := by
  have ha := sq_nonneg a
  have hb := sq_nonneg b
  have hc := sq_nonneg c
  have hd := sq_nonneg d
  have he := sq_nonneg e
  have hf := sq_nonneg f
  refine ⟨?_, ?_, ?_, ?_, ?_, ?_⟩ <;>
    exact pow_eq_zero_iff (two_ne_zero) |>.mp (by linarith)

theorem totalCost_eq_zero_of_feasible {K : Type} [LinearOrderedField K] (g : Globals K)
    (D : List Thruster) (F0 : Forces K) (hD : ∀ k ∈ D, F0.get k = 0)
    (h1 : surgeRes g F0 = 0) (h2 : swayRes g F0 = 0) (h3 : heaveRes g F0 = 0)
    (h4 : rollRes g F0 = 0) (h5 : pitchRes g F0 = 0) (h6 : yawRes g F0 = 0) :
    totalCost g D F0 = 0 := by
  have hsum : ((D.dedup).map (fun k => disableRes g k F0 ^ 2)).sum = 0 := by
    apply List.sum_eq_zero
    intro x hx
    obtain ⟨k, hk, rfl⟩ := List.mem_map.mp hx
    rw [disableRes_eq_get, hD k (List.mem_dedup.mp hk)]
    simp
  simp [totalCost, eomCost, h1, h2, h3, h4, h5, h6, hsum]

/-- C16: feasible-case fault accommodation.  For every state and disabled set `D`, if some
force vector with zero force on every thruster of `D` makes the six residuals zero, then
every minimiser of the objective (squares of the six residuals plus squares of the disable
residuals of `D`) makes the six residuals zero and has zero force on every thruster of
`D`. -/
theorem feasible_fault_accommodation {K : Type} [LinearOrderedField K] (g : Globals K)
    (D : List Thruster)
    (hfeas : ∃ F0 : Forces K, (∀ k ∈ D, F0.get k = 0) ∧
      surgeRes g F0 = 0 ∧ swayRes g F0 = 0 ∧ heaveRes g F0 = 0 ∧
      rollRes g F0 = 0 ∧ pitchRes g F0 = 0 ∧ yawRes g F0 = 0)
    (F : Forces K) (hF : IsMinimiser g D F) :
    (surgeRes g F = 0 ∧ swayRes g F = 0 ∧ heaveRes g F = 0 ∧
      rollRes g F = 0 ∧ pitchRes g F = 0 ∧ yawRes g F = 0) ∧
    ∀ k ∈ D, F.get k = 0 := by
  obtain ⟨F0, hD, h1, h2, h3, h4, h5, h6⟩ := hfeas
  have hle : totalCost g D F ≤ 0 := by
    have h := hF F0
    rwa [totalCost_eq_zero_of_feasible g D F0 hD h1 h2 h3 h4 h5 h6] at h
  have he := eomCost_nonneg g F
  have hd := disable_sum_nonneg g D F
  have hcost : eomCost g F = 0 := by
    unfold totalCost at hle
    linarith
  have hdis : ((D.dedup).map (fun k => disableRes g k F ^ 2)).sum = 0 := by
    unfold totalCost at hle
    linarith
  refine ⟨sq_eq_zero_of_six _ _ _ _ _ _ hcost, ?_⟩
  intro k hk
  have hmem : disableRes g k F ^ 2 ∈ (D.dedup).map (fun k => disableRes g k F ^ 2) :=
    List.mem_map.mpr ⟨k, List.mem_dedup.mpr hk, rfl⟩
  have hnn : ∀ x ∈ (D.dedup).map (fun k => disableRes g k F ^ 2), (0 : K) ≤ x := by
    intro x hx
    obtain ⟨k', _, rfl⟩ := List.mem_map.mp hx
    positivity
  have hle1 := List.single_le_sum hnn _ hmem
  rw [hdis] at hle1
  have hz : disableRes g k F ^ 2 = 0 := le_antisymm hle1 (sq_nonneg _)
  rw [disableRes_eq_get] at hz
  exact pow_eq_zero_iff (two_ne_zero) |>.mp hz

theorem portSurgeDownSolution_feasible :
    (∀ k ∈ portSurgeDisabled, portSurgeDownSolution.get k = 0) ∧
    surgeRes surgeCommandVehicle portSurgeDownSolution = 0 ∧
    swayRes surgeCommandVehicle portSurgeDownSolution = 0 ∧
    heaveRes surgeCommandVehicle portSurgeDownSolution = 0 ∧
    rollRes surgeCommandVehicle portSurgeDownSolution = 0 ∧
    pitchRes surgeCommandVehicle portSurgeDownSolution = 0 ∧
    yawRes surgeCommandVehicle portSurgeDownSolution = 0 := by
  refine ⟨?_, ?_, ?_, ?_, ?_, ?_, ?_⟩
  · intro k hk
    simp only [portSurgeDisabled, List.mem_singleton] at hk
    subst hk
    rfl
  · norm_num [surgeRes, surge, surgeNum, surgeCommandVehicle, restVehicle,
      portSurgeDownSolution, ofBool]
  · norm_num [swayRes, sway, swayNum, surgeCommandVehicle, restVehicle,
      portSurgeDownSolution, ofBool]
  · norm_num [heaveRes, heave, heaveNum, surgeCommandVehicle, restVehicle,
      portSurgeDownSolution, ofBool]
  · norm_num [rollRes, roll, rollNum, surgeCommandVehicle, restVehicle,
      portSurgeDownSolution, ofBool]
  · norm_num [pitchRes, pitch, pitchNum, surgeCommandVehicle, restVehicle,
      portSurgeDownSolution, ofBool]
  · norm_num [yawRes, yaw, yawNum, surgeCommandVehicle, restVehicle,
      portSurgeDownSolution, ofBool]

theorem portSurgeDownSolution_minimiser :
    IsMinimiser surgeCommandVehicle portSurgeDisabled portSurgeDownSolution := by
  intro F
  obtain ⟨hD, h1, h2, h3, h4, h5, h6⟩ := portSurgeDownSolution_feasible
  rw [totalCost_eq_zero_of_feasible _ _ _ hD h1 h2 h3 h4 h5 h6]
  exact totalCost_nonneg _ _ _

/-- Evaluation of C16 on the surge-command vehicle with the port surge thruster disabled:
the command stays feasible, and the minimiser leaves the disabled thruster at zero. -/
theorem feasible_fault_accommodation_witness :
    IsMinimiser surgeCommandVehicle portSurgeDisabled portSurgeDownSolution ∧
    (surgeRes surgeCommandVehicle portSurgeDownSolution = 0 ∧
      swayRes surgeCommandVehicle portSurgeDownSolution = 0 ∧
      heaveRes surgeCommandVehicle portSurgeDownSolution = 0 ∧
      rollRes surgeCommandVehicle portSurgeDownSolution = 0 ∧
      pitchRes surgeCommandVehicle portSurgeDownSolution = 0 ∧
      yawRes surgeCommandVehicle portSurgeDownSolution = 0) ∧
    ∀ k ∈ portSurgeDisabled, portSurgeDownSolution.get k = 0 :=
  ⟨portSurgeDownSolution_minimiser,
    feasible_fault_accommodation surgeCommandVehicle portSurgeDisabled
      ⟨portSurgeDownSolution, portSurgeDownSolution_feasible⟩ portSurgeDownSolution
      portSurgeDownSolution_minimiser⟩

/-! ## The angular-velocity terms -/

/-- C17: for every angular velocity `w` and inertias, the angular-velocity terms of the
numerators of `roll`, `pitch`, `yaw` (the numerator at `ang_v = w` minus the numerator at
zero angular velocity) are `-(w.z*w.y)*(Izz-Iyy)`, `-(w.x*w.z)*(Ixx-Izz)` and
`-(w.y*w.x)*(Iyy-Ixx)`, which are the `x`, `y`, `z` components of `-(w × (I w))` with
`I = diag(Ixx, Iyy, Izz)`; their dot product with `w` is zero; and `tuneRoll`, `tunePitch`,
`tuneYaw` carry the same terms. -/
theorem gyroscopic_terms_are_cross_product {K : Type} [Field K] (g : Globals K)
    (w : Vector3 K) (F : Forces K) (C : vector K) :
    ((specGyroTerm g w).x = -(w.z * w.y) * (g.Izz - g.Iyy) ∧
      (specGyroTerm g w).y = -(w.x * w.z) * (g.Ixx - g.Izz) ∧
      (specGyroTerm g w).z = -(w.y * w.x) * (g.Iyy - g.Ixx)) ∧
    (rollNum { g with ang_v := w } F.sway_fwd F.sway_aft F.heave_port_fwd F.heave_stbd_fwd
          F.heave_port_aft F.heave_stbd_aft
        - rollNum { g with ang_v := ⟨0, 0, 0⟩ } F.sway_fwd F.sway_aft F.heave_port_fwd
            F.heave_stbd_fwd F.heave_port_aft F.heave_stbd_aft
        = (specGyroTerm g w).x ∧
      pitchNum { g with ang_v := w } F.surge_port_lo F.surge_stbd_lo F.heave_port_fwd
          F.heave_stbd_fwd F.heave_port_aft F.heave_stbd_aft
        - pitchNum { g with ang_v := ⟨0, 0, 0⟩ } F.surge_port_lo F.surge_stbd_lo
            F.heave_port_fwd F.heave_stbd_fwd F.heave_port_aft F.heave_stbd_aft
        = (specGyroTerm g w).y ∧
      yawNum { g with ang_v := w } F.surge_port_lo F.surge_stbd_lo F.sway_fwd F.sway_aft
        - yawNum { g with ang_v := ⟨0, 0, 0⟩ } F.surge_port_lo F.surge_stbd_lo F.sway_fwd
            F.sway_aft
        = (specGyroTerm g w).z) ∧
    vector.dot (specGyroTerm g w) w.toVector = 0 ∧
    ((tuneRoll { g with ang_v := w } C.y C.z).2
        - (tuneRoll { g with ang_v := ⟨0, 0, 0⟩ } C.y C.z).2 = (specGyroTerm g w).x ∧
      (tunePitch { g with ang_v := w } C.x C.z).2
        - (tunePitch { g with ang_v := ⟨0, 0, 0⟩ } C.x C.z).2 = (specGyroTerm g w).y ∧
      (tuneYaw { g with ang_v := w } C.x C.y).2
        - (tuneYaw { g with ang_v := ⟨0, 0, 0⟩ } C.x C.y).2 = (specGyroTerm g w).z) := by
  refine ⟨⟨?_, ?_, ?_⟩, ⟨?_, ?_, ?_⟩, ?_, ⟨?_, ?_, ?_⟩⟩
  · simp only [specGyroTerm, vector.neg, vector.cross, Vector3.toVector]
    ring
  · simp only [specGyroTerm, vector.neg, vector.cross, Vector3.toVector]
    ring
  · simp only [specGyroTerm, vector.neg, vector.cross, Vector3.toVector]
    ring
  · simp only [rollNum, specGyroTerm, vector.neg, vector.cross, Vector3.toVector]
    ring
  · simp only [pitchNum, specGyroTerm, vector.neg, vector.cross, Vector3.toVector]
    ring
  · simp only [yawNum, specGyroTerm, vector.neg, vector.cross, Vector3.toVector]
    ring
  · simp only [vector.dot, specGyroTerm, vector.neg, vector.cross, Vector3.toVector]
    ring
  · simp only [tuneRoll, specGyroTerm, vector.neg, vector.cross, Vector3.toVector]
    ring
  · simp only [tunePitch, specGyroTerm, vector.neg, vector.cross, Vector3.toVector]
    ring
  · simp only [tuneYaw, specGyroTerm, vector.neg, vector.cross, Vector3.toVector]
    ring

/-! ## Thruster count, array bounds and the returned flag -/

/-- C18: `EOM::operator()` sums the thruster contributions over `j < numThrusters`.
Whenever `0 ≤ numThrusters ≤ 8` the call reads no entry outside the 6×8 table or the
8-element force array (it returns a result), the residual of axis `i` is
`(Σ_{j < numThrusters} thrustFM[i][j] * f[j] + weightFM[i] + transportThm[i]) / inertia[i]
- command[i]`, and two force vectors that agree on the indices below `numThrusters` give the
same six residuals. -/
theorem EOM_sums_below_numThrusters {K : Type} [Field K] (tc : ThrusterController K)
    (_h0 : 0 ≤ tc.numThrusters) (h8 : tc.numThrusters ≤ 8) (f f' : Fin 8 → K)
    (hagree : ∀ j : Fin 8, (j.val : Int) < tc.numThrusters → f j = f' j)
    (residual : Fin 6 → K) :
    ∃ out : Fin 6 → K,
      EOM.call tc f residual = some (true, out) ∧
      EOM.call tc f' residual = some (true, out) ∧
      ∀ i : Fin 6, out i =
        (∑ j : Fin 8, (if (j.val : Int) < tc.numThrusters then tc.thrustFM i j * f j else 0)
            + tc.weightFM i + tc.transportThm i) / tc.inertia i
          - tc.command i := by
  refine ⟨eomResidualUpTo tc f, EOM.call_le_eight tc h8 f residual, ?_, fun _ => rfl⟩
  rw [EOM.call_le_eight tc h8 f' residual]
  have hsame : eomResidualUpTo tc f' = eomResidualUpTo tc f := by
    funext i
    have hsum : ∑ j : Fin 8,
          (if (j.val : Int) < tc.numThrusters then tc.thrustFM i j * f' j else 0)
        = ∑ j : Fin 8,
          (if (j.val : Int) < tc.numThrusters then tc.thrustFM i j * f j else 0) := by
      apply Finset.sum_congr rfl
      intro j _
      by_cases hj : (j.val : Int) < tc.numThrusters
      · simp only [hj, if_true, hagree j hj]
      · simp only [hj, if_false]
    simp only [eomResidualUpTo, hsum]
  rw [hsame]

theorem sixThruster_agree :
    ∀ j : Fin 8, (j.val : Int) < sixThrusterController.numThrusters →
      (fun j : Fin 8 => (j.val : ℚ)) j
        = (fun j : Fin 8 => if j.val < 6 then (j.val : ℚ) else 100) j := by
  intro j hj
  have h6 : j.val < 6 := by
    have : (j.val : Int) < 6 := hj
    omega
  simp [h6]

/-- Evaluation of C18 on the sample controller with six thrusters in use: changing the
forces of index 6 and 7 to 100 leaves the residuals unchanged. -/
theorem EOM_sums_below_numThrusters_witness :
    (0 ≤ sixThrusterController.numThrusters ∧ sixThrusterController.numThrusters ≤ 8) ∧
    ∃ out : Fin 6 → ℚ,
      EOM.call sixThrusterController (fun j => (j.val : ℚ)) (fun _ => 0)
        = some (true, out) ∧
      EOM.call sixThrusterController (fun j => if j.val < 6 then (j.val : ℚ) else 100)
        (fun _ => 0) = some (true, out) ∧
      ∀ i : Fin 6, out i =
        (∑ j : Fin 8, (if (j.val : Int) < sixThrusterController.numThrusters
              then sixThrusterController.thrustFM i j * (fun j : Fin 8 => (j.val : ℚ)) j
              else 0)
            + sixThrusterController.weightFM i + sixThrusterController.transportThm i)
          / sixThrusterController.inertia i
          - sixThrusterController.command i :=
  ⟨⟨by decide, by decide⟩,
    EOM_sums_below_numThrusters sixThrusterController (by decide) (by decide)
      (fun j => (j.val : ℚ)) (fun j => if j.val < 6 then (j.val : ℚ) else 100)
      sixThruster_agree (fun _ => 0)⟩

/-- C19: residual evaluation never signals failure.  `EOM::operator()` never returns
`false`, and returns `true` whenever its reads are in range, whatever `inertia[i]` is;
each per-axis, calibration and disable functor returns `true` for every input, whatever
`mass`, `Ixx`, `Iyy`, `Izz` are (zero and negative included): the flag of no functor
depends on a divisor. -/
theorem residuals_never_signal_failure {K : Type} [Field K] (tc : ThrusterController K)
    (f : Fin 8 → K) (residual : Fin 6 → K) (g : Globals K) (F : Forces K) (C : vector K) :
    (∀ (flag : Bool) (out : Fin 6 → K),
      EOM.call tc f residual = some (flag, out) → flag = true) ∧
    (tc.numThrusters ≤ 8 → ∃ out : Fin 6 → K, EOM.call tc f residual = some (true, out)) ∧
    ((surge g F.surge_port_lo F.surge_stbd_lo).1 = true ∧
      (sway g F.sway_fwd F.sway_aft).1 = true ∧
      (heave g F.heave_port_fwd F.heave_stbd_fwd F.heave_port_aft F.heave_stbd_aft).1 = true ∧
      (roll g F.sway_fwd F.sway_aft F.heave_port_fwd F.heave_stbd_fwd F.heave_port_aft
        F.heave_stbd_aft).1 = true ∧
      (pitch g F.surge_port_lo F.surge_stbd_lo F.heave_port_fwd F.heave_stbd_fwd
        F.heave_port_aft F.heave_stbd_aft).1 = true ∧
      (yaw g F.surge_port_lo F.surge_stbd_lo F.sway_fwd F.sway_aft).1 = true) ∧
    ((tuneRoll g C.y C.z).1 = true ∧ (tunePitch g C.x C.z).1 = true ∧
      (tuneYaw g C.x C.y).1 = true) ∧
    ((disableSPL g F.surge_port_lo).1 = true ∧ (disableSSL g F.surge_stbd_lo).1 = true ∧
      (disableSWF g F.sway_fwd).1 = true ∧ (disableSWA g F.sway_aft).1 = true ∧
      (disableHPF g F.heave_port_fwd).1 = true ∧ (disableHSF g F.heave_stbd_fwd).1 = true ∧
      (disableHPA g F.heave_port_aft).1 = true ∧
      (disableHSA g F.heave_stbd_aft).1 = true) := by
  refine ⟨?_, ?_, ⟨rfl, rfl, rfl, rfl, rfl, rfl⟩, ⟨rfl, rfl, rfl⟩,
    ⟨rfl, rfl, rfl, rfl, rfl, rfl, rfl, rfl⟩⟩
  · intro flag out h
    unfold EOM.call at h
    split at h
    · cases h
    · injection h with h'
      exact (congrArg Prod.fst h').symm
  · intro h8
    exact ⟨eomResidualUpTo tc f, EOM.call_le_eight tc h8 f residual⟩

/-- Evaluation of C19 with zero divisors: the sample controller with `inertia[0] = 0` and
the vehicle at rest with `mass = 0` and `Ixx = -1` still get `true` from every functor. -/
theorem residuals_never_signal_failure_witness :
    zeroInertiaController.inertia 0 = 0 ∧
    (∃ out : Fin 6 → ℚ,
      EOM.call zeroInertiaController (fun _ => 1) (fun _ => 0) = some (true, out)) ∧
    (surge { restVehicle with mass := 0 } 1 1).1 = true ∧
    (roll { restVehicle with Ixx := -1 } 1 1 1 1 1 1).1 = true :=
  ⟨rfl,
    (residuals_never_signal_failure zeroInertiaController (fun _ => 1) (fun _ => 0)
      { restVehicle with mass := 0 } ⟨1, 1, 1, 1, 1, 1, 1, 1⟩ ⟨0, 0, 0⟩).2.1 (by decide),
    (residuals_never_signal_failure zeroInertiaController (fun _ => 1) (fun _ => 0)
      { restVehicle with mass := 0 } ⟨1, 1, 1, 1, 1, 1, 1, 1⟩ ⟨0, 0, 0⟩).2.2.1.1,
    (residuals_never_signal_failure zeroInertiaController (fun _ => 1) (fun _ => 0)
      { restVehicle with Ixx := -1 } ⟨1, 1, 1, 1, 1, 1, 1, 1⟩ ⟨0, 0, 0⟩).2.2.1.2.2.2.1⟩

/-- Beyond eight thrusters the inner loop reads `thrustFM[i][8]` and `forces[8]`, outside
both arrays: the call has no result. -/
theorem EOM.call_out_of_range {K : Type} [Field K] (tc : ThrusterController K)
    (h9 : 8 < tc.numThrusters) (f : Fin 8 → K) (r : Fin 6 → K) :
    EOM.call tc f r = none := by
  obtain ⟨k, hk⟩ : ∃ k : Nat, tc.numThrusters.toNat = 8 + (k + 1) :=
    ⟨tc.numThrusters.toNat - 9, by omega⟩
  have hloop : ∀ (i : Fin 6) (r0 : Fin 6 → K),
      EOM.thrusterLoop tc f i (List.range tc.numThrusters.toNat) r0 = none := by
    intro i r0
    rw [hk, List.range_add, EOM.thrusterLoop_append, EOM.thrusterLoop_range tc f i 8 le_rfl,
      List.range_succ_eq_map]
    simp [EOM.thrusterLoop]
  have hbody : ∀ (i : Fin 6) (r0 : Fin 6 → K), EOM.axisBody tc f i r0 = none := by
    intro i r0
    unfold EOM.axisBody
    simp only [hloop]
  unfold EOM.call
  rw [finRange_six]
  simp only [EOM.axisLoop, hbody]

end Riptide
